import Mathlib

/-!
# Verification of the survival-credit hazard-rate pipeline

Shallow embedding of `src/v1-model-full/survival_credit_model.py`.

Conventions of the embedding:
* A pandas `DataFrame` of flow data is a `Frame`: a list of column names plus
  typed rows (`FlowRecord`).  Floating-point numbers read from the table are
  embedded as exact rationals; the special IEEE values that arise from
  division by zero inside the pipeline (`inf`, `-inf`, `nan`) are embedded by
  the inductive `FloatV`.  Arithmetic and comparisons on `FloatV` follow IEEE
  semantics (every comparison involving `nan` is false, `0 * inf = nan`, ...).
* Python exceptions (`ValueError`, `IndexError`) are embedded by
  `Except ModelError`.
* Python dictionaries keyed by month are embedded by association lists whose
  keys are produced without duplicates (pandas group keys are unique).
-/

/-- IEEE double values flowing through the pipeline: an exact finite value or
one of the special values produced by division by zero. -/
inductive FloatV where
  | fin (q : ℚ)
  | inf
  | neginf
  | nan
deriving DecidableEq

namespace FloatV

/-- IEEE addition restricted to the values above. -/
def add : FloatV → FloatV → FloatV
  | nan, _ => nan
  | _, nan => nan
  | inf, neginf => nan
  | neginf, inf => nan
  | inf, _ => inf
  | _, inf => inf
  | neginf, _ => neginf
  | _, neginf => neginf
  | fin a, fin b => fin (a + b)

/-- IEEE negation. -/
def neg : FloatV → FloatV
  | fin a => fin (-a)
  | inf => neginf
  | neginf => inf
  | nan => nan

/-- IEEE subtraction. -/
def sub (a b : FloatV) : FloatV := add a (neg b)

/-- IEEE multiplication (`0 * inf = nan`). -/
def mul : FloatV → FloatV → FloatV
  | nan, _ => nan
  | _, nan => nan
  | fin a, fin b => fin (a * b)
  | fin a, inf => if 0 < a then inf else if a < 0 then neginf else nan
  | inf, fin a => if 0 < a then inf else if a < 0 then neginf else nan
  | fin a, neginf => if 0 < a then neginf else if a < 0 then inf else nan
  | neginf, fin a => if 0 < a then neginf else if a < 0 then inf else nan
  | inf, inf => inf
  | inf, neginf => neginf
  | neginf, inf => neginf
  | neginf, neginf => inf

/-- IEEE strict comparison; false whenever `nan` is involved. -/
def lt : FloatV → FloatV → Bool
  | nan, _ => false
  | _, nan => false
  | fin a, fin b => decide (a < b)
  | fin _, inf => true
  | neginf, fin _ => true
  | neginf, inf => true
  | _, _ => false

/-- IEEE non-strict comparison; false whenever `nan` is involved. -/
def le : FloatV → FloatV → Bool
  | nan, _ => false
  | _, nan => false
  | fin a, fin b => decide (a ≤ b)
  | fin _, inf => true
  | neginf, _ => true
  | inf, inf => true
  | _, _ => false

/-- IEEE absolute value. -/
def fabs : FloatV → FloatV
  | fin a => fin |a|
  | inf => inf
  | neginf => inf
  | nan => nan

/-- Python `max(0, x)`: iterates left to right keeping the larger element, so
`x` replaces `0` exactly when `x > 0` (hence `max(0, nan) = 0`). -/
def max0 (x : FloatV) : FloatV := if lt (fin 0) x then x else fin 0

/-- Division of a value by a positive integer count (used for means). -/
def divNat (x : FloatV) (n : ℕ) : FloatV :=
  match x with
  | fin a => fin (a / n)
  | inf => inf
  | neginf => neginf
  | nan => nan

end FloatV

/-- IEEE division of two finite values, as produced by pandas/numpy on a
Series: `x / 0` is `inf`, `-inf` or `nan` according to the sign of `x`
(no exception is raised). -/
def fdiv (a b : ℚ) : FloatV :=
  if b ≠ 0 then .fin (a / b)
  else if 0 < a then .inf
  else if a < 0 then .neginf
  else .nan

/-- `Series.fillna(0)`: replaces `NaN` (and only `NaN`) by `0`. -/
def fillna0 : FloatV → FloatV
  | .nan => .fin 0
  | v => v

/-- One row of a flow table (`REQUIRED_COLUMNS` of the source, typed). -/
structure FlowRecord where
  segment_id : String
  month_on_book : ℤ
  payments : ℚ
  chargeoffs : ℚ
  outstanding_balance : ℚ
deriving DecidableEq

instance : Inhabited FlowRecord := ⟨⟨"", 0, 0, 0, 0⟩⟩

/-- A pandas DataFrame of flow data: its column names plus the typed rows.
Rows carry all five required fields; `columns` records which columns the
caller actually supplied, so the missing-column check of the source can be
stated. -/
structure Frame where
  columns : List String
  rows : List FlowRecord

/-- `DataValidator.REQUIRED_COLUMNS`. -/
def REQUIRED_COLUMNS : List String :=
  ["segment_id", "month_on_book", "payments", "chargeoffs", "outstanding_balance"]

/-- The result dictionary built by `DataValidator.validate_data`
(the never-populated `summary` entry is omitted). -/
structure ValidationResult where
  valid : Bool
  errors : List String
  warnings : List String
deriving DecidableEq

/-- Python `min`/`max` over a nonempty list of integers (the `[]` case is
unreachable in every use below; python would raise there). -/
def pyMin : List ℤ → ℤ
  | [] => 0
  | a :: t => t.foldl min a

/-- See `pyMin`. -/
def pyMax : List ℤ → ℤ
  | [] => 0
  | a :: t => t.foldl max a

/-- `df['month_on_book'].min() < 0`: the minimum of an empty pandas Series is
`NaN` and `NaN < 0` is false. -/
def monthMinNegative (rows : List FlowRecord) : Bool :=
  match rows.map (fun r => r.month_on_book) with
  | [] => false
  | m :: ms => decide (ms.foldl min m < 0)

/-- `amount / balance > 1.0` on a pandas Series entry (float semantics:
`x / 0` is `±inf` or `nan`, and only `+inf` exceeds `1.0`). -/
def rateExceedsOne (amount balance : ℚ) : Bool :=
  FloatV.lt (.fin 1) (fdiv amount balance)

/-- The error messages appended by `DataValidator._check_data_quality`, in
source order.  Note: the source appends to `results['errors']` but never sets
`results['valid'] = False` here. -/
def quality_errors (rows : List FlowRecord) : List String :=
  (if monthMinNegative rows then ["month_on_book cannot be negative"] else []) ++
  (if rows.any (fun r => decide (r.payments < 0)) then ["Negative payments detected"] else []) ++
  (if rows.any (fun r => decide (r.chargeoffs < 0)) then ["Negative chargeoffs detected"] else [])

/-- The warning messages appended by `DataValidator._check_data_quality`, in
source order. -/
def quality_warnings (rows : List FlowRecord) : List String :=
  (if rows.any (fun r => decide (r.outstanding_balance ≤ 0))
    then ["Zero or negative outstanding_balance detected"] else []) ++
  (if rows.any (fun r => rateExceedsOne r.payments r.outstanding_balance)
    then ["Payment rates > 100% detected"] else []) ++
  (if rows.any (fun r => rateExceedsOne r.chargeoffs r.outstanding_balance)
    then ["Chargeoff rates > 100% detected"] else [])

/-- `df['segment_id'].unique()`: unique values in order of first appearance. -/
def uniqueSegments (rows : List FlowRecord) : List String :=
  rows.foldl (fun acc r => if acc.contains r.segment_id then acc else acc ++ [r.segment_id]) []

/-- `sort_values('month_on_book')` on a list of rows. -/
def sortByMonth (rows : List FlowRecord) : List FlowRecord :=
  rows.insertionSort (fun a b => a.month_on_book ≤ b.month_on_book)

/-- `implied_next_balance` of a row. -/
def impliedNextBalance (r : FlowRecord) : ℚ :=
  r.outstanding_balance - r.payments - r.chargeoffs

/-- First balance-flow inconsistency (beyond the $0.01 tolerance) between
consecutive rows of one sorted segment; returns the offending month. -/
def firstInconsistency : List FlowRecord → Option ℤ
  | [] => none
  | [_] => none
  | a :: b :: t =>
    if 1/100 < |impliedNextBalance a - b.outstanding_balance| then some a.month_on_book
    else firstInconsistency (b :: t)

/-- `DataValidator._check_business_logic`: one warning per offending segment,
first inconsistency only. -/
def business_logic_warnings (rows : List FlowRecord) : List String :=
  (uniqueSegments rows).flatMap (fun seg =>
    match firstInconsistency (sortByMonth (rows.filter (fun r => r.segment_id = seg))) with
    | some m =>
      ["Balance flow inconsistency in segment " ++ seg ++ " at month " ++ toString m]
    | none => [])

/-- `sorted(segment_df['month_on_book'].unique())`. -/
def sortedUniqueMonths (rows : List FlowRecord) : List ℤ :=
  (rows.foldl (fun acc r => if acc.contains r.month_on_book then acc else acc ++ [r.month_on_book]) []).insertionSort (· ≤ ·)

/-- `DataValidator._check_completeness`: gaps between the minimum and maximum
observed month of a segment (python renders the set of missing months inside
the message; the embedding renders the list). -/
def completeness_warnings (rows : List FlowRecord) : List String :=
  (uniqueSegments rows).flatMap (fun seg =>
    let months := sortedUniqueMonths (rows.filter (fun r => r.segment_id = seg))
    match months with
    | [] => []
    | _ :: _ =>
      let expected := (List.range (pyMax months - pyMin months + 1).toNat).map
        (fun k => pyMin months + (k : ℤ))
      let missing := expected.filter (fun m => ¬ months.contains m)
      if missing.isEmpty then []
      else ["Missing months in segment " ++ seg ++ ": " ++ toString missing])

/-- `DataValidator.validate_data`.  `valid` starts `True`; the only statement
in the source that sets it to `False` is the missing-columns branch —
`_check_data_quality` appends error messages without touching `valid`. -/
def validate_data (df : Frame) : ValidationResult :=
  if ¬ REQUIRED_COLUMNS.all (fun c => df.columns.contains c) then
    { valid := false, errors := ["Missing required columns"], warnings := [] }
  else
    { valid := true,
      errors := quality_errors df.rows,
      warnings := quality_warnings df.rows ++ business_logic_warnings df.rows ++
        completeness_warnings df.rows }

/-- The `month_on_book` group keys of `df.groupby('month_on_book')`:
unique months, ascending (pandas sorts group keys). -/
def groupAges (rows : List FlowRecord) : List ℤ :=
  (rows.foldl (fun acc r => if acc.contains r.month_on_book then acc else acc ++ [r.month_on_book]) []).insertionSort (· ≤ ·)

/-- Per-age sum of `outstanding_balance` in the groupby aggregation. -/
def sumBalance (rows : List FlowRecord) (m : ℤ) : ℚ :=
  ((rows.filter (fun r => r.month_on_book = m)).map (fun r => r.outstanding_balance)).sum

/-- Per-age sum of `payments`. -/
def sumPayments (rows : List FlowRecord) (m : ℤ) : ℚ :=
  ((rows.filter (fun r => r.month_on_book = m)).map (fun r => r.payments)).sum

/-- Per-age sum of `chargeoffs`. -/
def sumChargeoffs (rows : List FlowRecord) (m : ℤ) : ℚ :=
  ((rows.filter (fun r => r.month_on_book = m)).map (fun r => r.chargeoffs)).sum

/-- `agg_df['payment_hazard_rate']` after `fillna(0)`: summed payments over
summed balance per age, with `NaN` (the `0/0` case) replaced by `0`.  Pandas
leaves `±inf` (the `x/0`, `x ≠ 0` case) untouched. -/
def rawPaymentRates (rows : List FlowRecord) : List FloatV :=
  (groupAges rows).map (fun m => fillna0 (fdiv (sumPayments rows m) (sumBalance rows m)))

/-- `agg_df['chargeoff_hazard_rate']` after `fillna(0)`. -/
def rawChargeoffRates (rows : List FlowRecord) : List FloatV :=
  (groupAges rows).map (fun m => fillna0 (fdiv (sumChargeoffs rows m) (sumBalance rows m)))

/-- The index window that `Series.rolling(window, center=True, min_periods=1)`
averages for output position `i`: pandas shifts the trailing window by
`(window - 1) // 2`, so the window is `[i + offset - window + 1, i + offset]`
clipped to the series (the clipped window always contains `i`, so
`min_periods=1` is always met). -/
def rollingWindow (w : ℕ) (xs : List FloatV) (i : ℕ) : List FloatV :=
  let offset := (w - 1) / 2
  let lo : ℤ := (i : ℤ) + offset - w + 1
  let hi : ℤ := (i : ℤ) + offset
  (xs.drop lo.toNat).take (hi + 1 - lo.toNat).toNat

/-- Mean of a nonempty window (`[]` is unreachable; pandas would give `NaN`). -/
def meanFV (l : List FloatV) : FloatV :=
  match l with
  | [] => .nan
  | _ :: _ => FloatV.divNat (l.foldl FloatV.add (.fin 0)) l.length

/-- pandas `Series.mean()` with its default `skipna=True` (used for the
comparison summary statistics): `NaN` entries are dropped from both the sum
and the count; a series with no non-`NaN` entries has mean `NaN`. -/
def meanSkipna (l : List FloatV) : FloatV :=
  match l.filter (fun v => decide (v ≠ FloatV.nan)) with
  | [] => .nan
  | obs => FloatV.divNat (obs.foldl FloatV.add (.fin 0)) obs.length

/-- `Series.rolling(window, center=True, min_periods=1).mean()`. -/
def rollingMeanCentered (w : ℕ) (xs : List FloatV) : List FloatV :=
  (List.range xs.length).map (fun i => meanFV (rollingWindow w xs i))

/-- The two stored hazard curves (`month → smoothed rate` dictionaries),
embedded as association lists with unique keys (the retained
`training_data` aggregate table carries no information the claims use and is
represented only by its dictionary key, see `curveKeys`). -/
structure HazardCurves where
  payment_hazard : List (ℤ × FloatV)
  chargeoff_hazard : List (ℤ × FloatV)
deriving DecidableEq

/-- The body of `HazardRateEstimator.fit`: aggregate, rate, smooth, store. -/
def fitCurves (w : ℕ) (rows : List FlowRecord) : HazardCurves :=
  let ages := groupAges rows
  let praw := rawPaymentRates rows
  let craw := rawChargeoffRates rows
  let psm := if 1 < w then rollingMeanCentered w praw else praw
  let csm := if 1 < w then rollingMeanCentered w craw else craw
  { payment_hazard := ages.zip psm, chargeoff_hazard := ages.zip csm }

/-- `HazardRateEstimator`: the smoothing window and the mutable
`hazard_curves` dictionary (`none` embeds the initial empty dictionary). -/
structure HazardRateEstimator where
  smoothing_window : ℕ
  hazard_curves : Option HazardCurves
deriving DecidableEq

/-- `HazardRateEstimator.fit` as a state transformer: recomputes the curves
from the data and overwrites the stored dictionary. -/
def HazardRateEstimator.fit (est : HazardRateEstimator) (rows : List FlowRecord) :
    HazardRateEstimator :=
  { est with hazard_curves := some (fitCurves est.smoothing_window rows) }

/-- The `ValueError`s (and one `IndexError`) the pipeline can raise. -/
inductive ModelError where
  /-- "Model must be fitted first" -/
  | notFitted
  /-- "Invalid hazard_type: ..." -/
  | invalidKind
  /-- "Model must be trained before forecasting" -/
  | notTrained
  /-- "... validation failed: {errors}" raised by `train`/`forecast` -/
  | validationFailed (errors : List String)
  /-- `IndexError` from `.iloc[0]` on an empty frame in `generate_forecast` -/
  | indexError
deriving DecidableEq

/-- `rates[k]` for a key known to be present (`.nan` is the unreachable
`KeyError` case). -/
def lookupD (rates : List (ℤ × FloatV)) (k : ℤ) : FloatV :=
  (rates.lookup k).getD .nan

/-- Lookup / interpolation / extrapolation on one stored curve dictionary:
the body of `HazardRateEstimator.get_hazard_rate` after the two error
checks. -/
def getFromRates (rates : List (ℤ × FloatV)) (month : ℤ) : FloatV :=
  match rates.lookup month with
  | some r => r
  | none =>
    let available_months := (rates.map Prod.fst).insertionSort (· ≤ ·)
    if available_months.isEmpty then .fin 0
    else if month < pyMin available_months then lookupD rates (pyMin available_months)
    else if pyMax available_months < month then lookupD rates (pyMax available_months)
    else
      let lower_month := pyMax (available_months.filter (fun m => decide (m ≤ month)))
      let upper_month := pyMin (available_months.filter (fun m => decide (month ≤ m)))
      if lower_month = upper_month then lookupD rates lower_month
      else
        let weight : ℚ := ((month - lower_month : ℤ) : ℚ) / ((upper_month - lower_month : ℤ) : ℚ)
        FloatV.add (FloatV.mul (lookupD rates lower_month) (.fin (1 - weight)))
          (FloatV.mul (lookupD rates upper_month) (.fin weight))

/-- The keys of the `hazard_curves` dictionary after a `fit`. -/
def curveKeys : List String := ["payment_hazard", "chargeoff_hazard", "training_data"]

/-- `HazardRateEstimator.get_hazard_rate`: raises `NotFitted` on the empty
dictionary, then looks up `f"{hazard_type}_hazard"` among the dictionary keys
and raises `InvalidKind` when absent.  The `training_data` branch is
unreachable: no string `s` satisfies `s ++ "_hazard" = "training_data"`
(proved in `append_hazard_ne_training_data` below). -/
def HazardRateEstimator.get_hazard_rate (est : HazardRateEstimator) (month : ℤ)
    (hazard_type : String) : Except ModelError FloatV :=
  match est.hazard_curves with
  | none => .error .notFitted
  | some curves =>
    let curve_key := hazard_type ++ "_hazard"
    if ¬ curveKeys.contains curve_key then .error .invalidKind
    else if curve_key = "payment_hazard" then .ok (getFromRates curves.payment_hazard month)
    else if curve_key = "chargeoff_hazard" then .ok (getFromRates curves.chargeoff_hazard month)
    else .ok .nan

/-- One entry of `results['detailed_comparison']` in
`CurveTransferEngine.validate_known_actuals`. -/
structure ComparisonRow where
  month_on_book : ℤ
  expected_payment_rate : FloatV
  actual_payment_rate : FloatV
  payment_variance : FloatV
  expected_chargeoff_rate : FloatV
  actual_chargeoff_rate : FloatV
  chargeoff_variance : FloatV
deriving DecidableEq

/-- Which of the two variance thresholds a warning message reports. -/
inductive VarianceKind where
  | payment
  | chargeoff
deriving DecidableEq

/-- Summary statistics of the comparison.  `np.sqrt` has no exact rational
embedding, so the two RMSE fields store the radicand: the float the source
stores is the nonnegative square root of the value kept here. -/
structure SummaryStats where
  mean_payment_variance : FloatV
  mean_chargeoff_variance : FloatV
  rmse_payment_sq : FloatV
  rmse_chargeoff_sq : FloatV
deriving DecidableEq

/-- The result dictionary of `validate_known_actuals`; `none` embeds the empty
`summary_stats` dictionary left in place when there are no compared rows.
Each python warning string "Large {kind} variance at month {month}: ..." is
embedded by the pair `(month, kind)`. -/
structure CurveValidation where
  detailed_comparison : List ComparisonRow
  summary_stats : Option SummaryStats
  warnings : List (ℤ × VarianceKind)
deriving DecidableEq

/-- The per-row body of the comparison loop: two curve queries (which raise
`NotFitted` on an unfitted estimator), actual rates, variances. -/
def compareRow (est : HazardRateEstimator) (r : FlowRecord) :
    Except ModelError ComparisonRow := do
  let ep ← est.get_hazard_rate r.month_on_book "payment"
  let ec ← est.get_hazard_rate r.month_on_book "chargeoff"
  let ap := fdiv r.payments r.outstanding_balance
  let ac := fdiv r.chargeoffs r.outstanding_balance
  return { month_on_book := r.month_on_book,
           expected_payment_rate := ep,
           actual_payment_rate := ap,
           payment_variance := FloatV.sub ap ep,
           expected_chargeoff_rate := ec,
           actual_chargeoff_rate := ac,
           chargeoff_variance := FloatV.sub ac ec }

/-- The `iterrows` loop of `validate_known_actuals`, row by row. -/
def compareRows (est : HazardRateEstimator) : List FlowRecord → Except ModelError (List ComparisonRow)
  | [] => .ok []
  | r :: rest => do
    let c ← compareRow est r
    let cs ← compareRows est rest
    return c :: cs

/-- The warnings one comparison row contributes, in source order:
`abs(payment_variance) > 0.05` then `abs(chargeoff_variance) > 0.02`. -/
def rowWarnings (c : ComparisonRow) : List (ℤ × VarianceKind) :=
  (if FloatV.lt (.fin (1/20)) (FloatV.fabs c.payment_variance)
    then [(c.month_on_book, VarianceKind.payment)] else []) ++
  (if FloatV.lt (.fin (1/50)) (FloatV.fabs c.chargeoff_variance)
    then [(c.month_on_book, VarianceKind.chargeoff)] else [])

/-- `CurveTransferEngine.validate_known_actuals`. -/
def validate_known_actuals (est : HazardRateEstimator) (rows : List FlowRecord) :
    Except ModelError CurveValidation := do
  let comps ← compareRows est rows
  let warns := comps.flatMap rowWarnings
  let summary :=
    if comps.isEmpty then none
    else some
      { mean_payment_variance := meanSkipna (comps.map (fun c => c.payment_variance)),
        mean_chargeoff_variance := meanSkipna (comps.map (fun c => c.chargeoff_variance)),
        rmse_payment_sq :=
          meanSkipna (comps.map (fun c => FloatV.mul c.payment_variance c.payment_variance)),
        rmse_chargeoff_sq :=
          meanSkipna (comps.map (fun c => FloatV.mul c.chargeoff_variance c.chargeoff_variance)) }
  return { detailed_comparison := comps, summary_stats := summary, warnings := warns }

/-- `forecast_flag` (`'Actual'` / `'Forecast'` literal strings in the source). -/
inductive ForecastFlag where
  | Actual
  | Forecast
deriving DecidableEq

/-- A row of the complete forecast DataFrame. -/
structure ForecastRow where
  segment_id : String
  month_on_book : ℤ
  outstanding_balance : FloatV
  payments : FloatV
  chargeoffs : FloatV
  forecast_flag : ForecastFlag
deriving DecidableEq

/-- The known actuals copied into the forecast frame with
`forecast_flag = 'Actual'`. -/
def actualRowsOf (rows : List FlowRecord) : List ForecastRow :=
  rows.map (fun r =>
    { segment_id := r.segment_id,
      month_on_book := r.month_on_book,
      outstanding_balance := .fin r.outstanding_balance,
      payments := .fin r.payments,
      chargeoffs := .fin r.chargeoffs,
      forecast_flag := .Actual })

/-- The `for month in range(last_known_month + 1, max_month + 1)` loop of
`ForecastGenerator.generate_forecast`: `fuel` is the number of months left in
the range, `month` the current month, `bal` the running balance.  Each
iteration checks the $0.01 floor, queries both curves (raising `NotFitted` on
an unfitted estimator), emits a `Forecast` row, and clamps the next balance
at zero. -/
def forecastLoop (est : HazardRateEstimator) (seg : String) :
    ℕ → ℤ → FloatV → Except ModelError (List ForecastRow)
  | 0, _, _ => .ok []
  | fuel + 1, month, bal =>
    if FloatV.le bal (.fin (1/100)) then .ok []
    else do
      let pr ← est.get_hazard_rate month "payment"
      let cr ← est.get_hazard_rate month "chargeoff"
      let p := FloatV.mul bal pr
      let c := FloatV.mul bal cr
      let rest ← forecastLoop est seg fuel (month + 1)
        (FloatV.max0 (FloatV.sub (FloatV.sub bal p) c))
      return { segment_id := seg, month_on_book := month, outstanding_balance := bal,
               payments := p, chargeoffs := c, forecast_flag := .Forecast } :: rest

/-- `ForecastGenerator.generate_forecast`: start from the actuals, find the
last known month and its first row (`.iloc[0]`, which raises on an empty
frame), roll the balance-decay recurrence forward, and sort the concatenation
by month (`sort_values('month_on_book')`, embedded as a stable sort). -/
def generate_forecast (est : HazardRateEstimator) (known_actuals : List FlowRecord)
    (max_month : ℤ) : Except ModelError (List ForecastRow) :=
  match known_actuals with
  | [] => .error .indexError
  | r0 :: _ =>
    let last_known_month := pyMax (known_actuals.map (fun r => r.month_on_book))
    let last_row :=
      ((known_actuals.filter (fun r => r.month_on_book = last_known_month)).headD r0)
    let current_balance : ℚ :=
      last_row.outstanding_balance - last_row.payments - last_row.chargeoffs
    do
      let fr ← forecastLoop est last_row.segment_id (max_month - last_known_month).toNat
        (last_known_month + 1) (.fin current_balance)
      return (actualRowsOf known_actuals ++ fr).insertionSort
        (fun a b => a.month_on_book ≤ b.month_on_book)

/-- `SurvivalCreditModel`: the pipeline orchestrator's state (validator and
formatter are stateless; the curve engine and forecast generator only hold
the shared estimator). -/
structure SurvivalCreditModel where
  rate_estimator : HazardRateEstimator
  is_trained : Bool
deriving DecidableEq

/-- `SurvivalCreditModel.__init__(smoothing_window)`. -/
def SurvivalCreditModel.init (smoothing_window : ℕ) : SurvivalCreditModel :=
  { rate_estimator := { smoothing_window := smoothing_window, hazard_curves := none },
    is_trained := false }

/-- `SurvivalCreditModel.train`: validate (failing fast on `valid = False`),
fit, transition to trained. -/
def SurvivalCreditModel.train (m : SurvivalCreditModel) (df : Frame) :
    Except ModelError (SurvivalCreditModel × ValidationResult) :=
  let vr := validate_data df
  if vr.valid = false then .error (.validationFailed vr.errors)
  else
    .ok ({ rate_estimator := m.rate_estimator.fit df.rows, is_trained := true }, vr)

/-- `SurvivalCreditModel.forecast`: `NotTrained` when untrained, then
validate, compare against the curves, and extend.  The final
`OutputFormatter.format_curves_output` step (per-row ratios) is outside every
claim and is not replayed here; the un-formatted forecast rows are returned. -/
def SurvivalCreditModel.forecast (m : SurvivalCreditModel) (df : Frame)
    (_origination_amount : ℚ) (max_month : ℤ) :
    Except ModelError (List ForecastRow × CurveValidation) :=
  if m.is_trained = false then .error .notTrained
  else
    let vr := validate_data df
    if vr.valid = false then .error (.validationFailed vr.errors)
    else do
      let cv ← validate_known_actuals m.rate_estimator df.rows
      let fd ← generate_forecast m.rate_estimator df.rows max_month
      return (fd, cv)

/-- Adjacent-pair non-increasing test (IEEE `le`) on a list of balances. -/
def nonIncreasingFV : List FloatV → Bool
  | [] => true
  | [_] => true
  | a :: b :: t => FloatV.le b a && nonIncreasingFV (b :: t)

/-- All stored rates of a curve are finite and non-negative. -/
def finNonnegRates (rates : List (ℤ × FloatV)) : Prop :=
  ∀ p ∈ rates, ∃ q, p.2 = FloatV.fin q ∧ 0 ≤ q

/-! ## Helper lemmas -/

theorem foldl_min_le_init : ∀ (l : List ℤ) (a : ℤ), l.foldl min a ≤ a := by
  intro l
  induction l with
  | nil => intro a; simp
  | cons b t ih =>
    intro a
    simpa using le_trans (ih (min a b)) (min_le_left a b)

theorem foldl_min_le_mem : ∀ (l : List ℤ) (a x : ℤ), x ∈ l → l.foldl min a ≤ x := by
  intro l
  induction l with
  | nil => intro a x hx; simp at hx
  | cons b t ih =>
    intro a x hx
    rcases List.mem_cons.mp hx with h | h
    · subst h
      simpa using le_trans (foldl_min_le_init t (min a x)) (min_le_right a x)
    · simpa using ih (min a b) x h

theorem foldl_min_mem_or_init : ∀ (l : List ℤ) (a : ℤ), l.foldl min a = a ∨ l.foldl min a ∈ l := by
  intro l
  induction l with
  | nil => intro a; left; rfl
  | cons b t ih =>
    intro a
    rcases ih (min a b) with h | h
    · rcases min_cases a b with ⟨he, _⟩ | ⟨he, _⟩
      · left; simpa [he] using h
      · right; simp [List.foldl]; left; rw [← he]; simpa using h
    · right; simp [List.foldl]; right; simpa using h

theorem pyMin_mem {l : List ℤ} (h : l ≠ []) : pyMin l ∈ l := by
  match l with
  | [] => exact absurd rfl h
  | a :: t =>
    rcases foldl_min_mem_or_init t a with he | he
    · simp [pyMin, he]
    · simp [pyMin]; right; exact he

theorem pyMin_le {l : List ℤ} {x : ℤ} (h : x ∈ l) : pyMin l ≤ x := by
  match l with
  | [] => simp at h
  | a :: t =>
    rcases List.mem_cons.mp h with hx | hx
    · subst hx; exact foldl_min_le_init t x
    · exact foldl_min_le_mem t a x hx

theorem foldl_max_init_le : ∀ (l : List ℤ) (a : ℤ), a ≤ l.foldl max a := by
  intro l
  induction l with
  | nil => intro a; simp
  | cons b t ih =>
    intro a
    simpa using le_trans (le_max_left a b) (ih (max a b))

theorem foldl_max_mem_le : ∀ (l : List ℤ) (a x : ℤ), x ∈ l → x ≤ l.foldl max a := by
  intro l
  induction l with
  | nil => intro a x hx; simp at hx
  | cons b t ih =>
    intro a x hx
    rcases List.mem_cons.mp hx with h | h
    · subst h
      simpa using le_trans (le_max_right a x) (foldl_max_init_le t (max a x))
    · simpa using ih (max a b) x h

theorem foldl_max_mem_or_init : ∀ (l : List ℤ) (a : ℤ), l.foldl max a = a ∨ l.foldl max a ∈ l := by
  intro l
  induction l with
  | nil => intro a; left; rfl
  | cons b t ih =>
    intro a
    rcases ih (max a b) with h | h
    · rcases max_cases a b with ⟨he, _⟩ | ⟨he, _⟩
      · left; simpa [he] using h
      · right; simp [List.foldl]; left; rw [← he]; simpa using h
    · right; simp [List.foldl]; right; simpa using h

theorem pyMax_mem {l : List ℤ} (h : l ≠ []) : pyMax l ∈ l := by
  match l with
  | [] => exact absurd rfl h
  | a :: t =>
    rcases foldl_max_mem_or_init t a with he | he
    · simp [pyMax, he]
    · simp [pyMax]; right; exact he

theorem le_pyMax {l : List ℤ} {x : ℤ} (h : x ∈ l) : x ≤ pyMax l := by
  match l with
  | [] => simp at h
  | a :: t =>
    rcases List.mem_cons.mp h with hx | hx
    · subst hx; exact foldl_max_init_le t x
    · exact foldl_max_mem_le t a x hx

theorem pyMin_perm {l l' : List ℤ} (h : l.Perm l') : pyMin l = pyMin l' := by
  match l, l' with
  | [], l' => rw [List.Perm.nil_eq h]
  | a :: t, l' =>
    have hne' : l' ≠ [] := by
      intro he
      subst he
      exact absurd h.symm.nil_eq (by simp)
    apply le_antisymm
    · exact pyMin_le (h.mem_iff.mpr (pyMin_mem hne'))
    · exact pyMin_le (h.mem_iff.mp (pyMin_mem (by simp)))

theorem pyMax_perm {l l' : List ℤ} (h : l.Perm l') : pyMax l = pyMax l' := by
  match l, l' with
  | [], l' => rw [List.Perm.nil_eq h]
  | a :: t, l' =>
    have hne' : l' ≠ [] := by
      intro he
      subst he
      exact absurd h.symm.nil_eq (by simp)
    apply le_antisymm
    · exact le_pyMax (h.mem_iff.mp (pyMax_mem (by simp)))
    · exact le_pyMax (h.mem_iff.mpr (pyMax_mem hne'))

theorem lookup_eq_none_of_not_mem {rates : List (ℤ × FloatV)} {m : ℤ}
    (h : m ∉ rates.map Prod.fst) : rates.lookup m = none := by
  induction rates with
  | nil => rfl
  | cons kv t ih =>
    simp only [List.map_cons, List.mem_cons] at h
    push_neg at h
    simp [List.lookup, beq_eq_false_iff_ne.mpr h.1, ih h.2]

theorem lookup_isSome_of_mem {rates : List (ℤ × FloatV)} {m : ℤ}
    (h : m ∈ rates.map Prod.fst) : ∃ v, rates.lookup m = some v := by
  induction rates with
  | nil => simp at h
  | cons kv t ih =>
    by_cases he : m = kv.1
    · exact ⟨kv.2, by simp [List.lookup, he]⟩
    · simp only [List.map_cons, List.mem_cons] at h
      rcases h with h | h
      · exact absurd h he
      · rcases ih h with ⟨v, hv⟩
        exact ⟨v, by simp [List.lookup, beq_eq_false_iff_ne.mpr he, hv]⟩

theorem mem_of_lookup_eq_some {rates : List (ℤ × FloatV)} {m : ℤ} {v : FloatV}
    (h : rates.lookup m = some v) : (m, v) ∈ rates := by
  induction rates with
  | nil => simp [List.lookup] at h
  | cons kv t ih =>
    by_cases he : m = kv.1
    · simp [List.lookup, he] at h
      have hkv : (m, v) = kv := by rw [he, ← h]
      rw [hkv]
      exact List.mem_cons_self _ _
    · simp [List.lookup, beq_eq_false_iff_ne.mpr he] at h
      exact List.mem_cons_of_mem _ (ih h)

theorem append_hazard_inj {s t : String} (h : s ++ "_hazard" = t ++ "_hazard") : s = t := by
  have hd := congrArg String.data h
  rw [String.data_append, String.data_append] at hd
  exact String.ext (List.append_cancel_right hd)

theorem append_hazard_ne_training_data (s : String) : s ++ "_hazard" ≠ "training_data" := by
  intro h
  have hd := congrArg String.data h
  rw [String.data_append] at hd
  have hlen := congrArg List.length hd
  rw [List.length_append] at hlen
  have h7 : "_hazard".data.length = 7 := by decide
  have h13 : "training_data".data.length = 13 := by decide
  have h6 : s.data.length = 6 := by omega
  have hdrop : "_hazard".data = "training_data".data.drop 6 := by
    rw [← hd, ← h6, List.drop_left]
  exact absurd hdrop (by decide)

theorem curve_key_not_mem {kind : String} (hp : kind ≠ "payment") (hc : kind ≠ "chargeoff") :
    (kind ++ "_hazard") ∉ curveKeys := by
  have h1 : kind ++ "_hazard" ≠ "payment_hazard" := by
    intro h
    exact hp (append_hazard_inj (s := kind) (t := "payment") h)
  have h2 : kind ++ "_hazard" ≠ "chargeoff_hazard" := by
    intro h
    exact hc (append_hazard_inj (s := kind) (t := "chargeoff") h)
  have h3 := append_hazard_ne_training_data kind
  simp [curveKeys, h1, h2, h3]

/-! ## Claims -/

/-- C1.  The claim says `validate(table)` returns `valid = false` whenever a
row has negative `payments`, `chargeoffs` or `month_on_book`.  The source
appends the corresponding error message but never sets `valid` to `False`
outside the missing-column branch, so on a table with a negative payment the
returned result is `valid = True` with a nonempty error list — contradicting
the repository's own test (`test_pipeline.test_error_handling`, test 3, which
requires `result['valid']` to be falsy on exactly this input) and the spec.
This theorem evaluates the validator at that failing input. -/
theorem c1_negative_payments_not_fatal :
    (validate_data ⟨REQUIRED_COLUMNS, [⟨"test", 0, -100, 10, 1000⟩]⟩).valid = true
  ∧ (validate_data ⟨REQUIRED_COLUMNS, [⟨"test", 0, -100, 10, 1000⟩]⟩).errors
      = ["Negative payments detected"] := by
  constructor
  · with_unfolding_all decide
  · with_unfolding_all decide

/-- C2.  The claim says the raw hazard rate is 0 for every age whose summed
balance is 0, including ages with nonzero summed flow.  The source divides
and then calls `fillna(0)`, which replaces only `NaN` (the `0/0` case);
pandas evaluates `100/0` to `+inf`, which `fillna` leaves in place, so a
one-row table with balance 0 and payments 100 stores `inf`, not 0 — while
the code's own comment ("Handle division by zero") and the spec intend 0.
The second conjunct checks the true part of the claim: two segments with
summed balance 2000 and summed payments 100 at age 0 store exactly 1/20
under smoothing window 1. -/
theorem c2_zero_balance_rate_is_inf :
    (fitCurves 1 [⟨"A", 0, 100, 0, 0⟩]).payment_hazard = [(0, .inf)]
  ∧ (fitCurves 1 [⟨"S1", 0, 60, 0, 1200⟩, ⟨"S2", 0, 40, 0, 800⟩]).payment_hazard
      = [(0, .fin (1/20))] := by
  constructor
  · with_unfolding_all decide
  · with_unfolding_all decide

/-- C3.  Out-of-sequence calls abort with the corresponding error and no
partial output: `forecast` on an untrained pipeline is `NotTrained` for every
input; `get_hazard_rate` on an unfitted estimator is `NotFitted` for every
age and kind; `get_hazard_rate` on a fitted estimator with a kind that is
neither `"payment"` nor `"chargeoff"` is `InvalidKind` (an `Except.error`
carries no partial result). -/
theorem c3_sequencing_guards :
    (∀ (m : SurvivalCreditModel), m.is_trained = false →
      ∀ (df : Frame) (oa : ℚ) (mm : ℤ), m.forecast df oa mm = .error .notTrained)
  ∧ (∀ (est : HazardRateEstimator), est.hazard_curves = none →
      ∀ (month : ℤ) (kind : String), est.get_hazard_rate month kind = .error .notFitted)
  ∧ (∀ (est : HazardRateEstimator) (c : HazardCurves), est.hazard_curves = some c →
      ∀ (month : ℤ) (kind : String), kind ≠ "payment" → kind ≠ "chargeoff" →
      est.get_hazard_rate month kind = .error .invalidKind) := by
  refine ⟨?_, ?_, ?_⟩
  · intro m hm df oa mm
    simp [SurvivalCreditModel.forecast, hm]
  · intro est h month kind
    simp [HazardRateEstimator.get_hazard_rate, h]
  · intro est c h month kind hp hc
    simp [HazardRateEstimator.get_hazard_rate, h, curve_key_not_mem hp hc]

/-- Witness for C3 at concrete inputs. -/
theorem c3_sequencing_guards_witness :
    (SurvivalCreditModel.init 3).forecast ⟨REQUIRED_COLUMNS, []⟩ 1000 12 = .error .notTrained
  ∧ (⟨3, none⟩ : HazardRateEstimator).get_hazard_rate 5 "payment" = .error .notFitted
  ∧ ((⟨1, none⟩ : HazardRateEstimator).fit [⟨"T", 0, 50, 0, 100⟩]).get_hazard_rate 0 "bogus"
      = .error .invalidKind := by
  refine ⟨c3_sequencing_guards.1 _ rfl _ _ _,
          c3_sequencing_guards.2.1 _ rfl _ _,
          c3_sequencing_guards.2.2 _ _ rfl 0 "bogus" ?_ ?_⟩
  · decide
  · decide

/-- C8.  `fit` is a pure function of the smoothing window and the training
data: re-running it on identical data replaces the stored curves with an
identical value, so the estimator state (in particular both stored
mappings) after the second call equals the state after the first. -/
theorem c8_fit_idempotent (est : HazardRateEstimator) (rows : List FlowRecord) :
    (est.fit rows).fit rows = est.fit rows
  ∧ ((est.fit rows).fit rows).hazard_curves = (est.fit rows).hazard_curves :=
  ⟨rfl, rfl⟩

theorem monthMinNegative_eq_false {rows : List FlowRecord}
    (h : ∀ r ∈ rows, 0 ≤ r.month_on_book) : monthMinNegative rows = false := by
  unfold monthMinNegative
  cases hm : rows.map (fun r => r.month_on_book) with
  | nil => rfl
  | cons m ms =>
    have hall : ∀ x ∈ m :: ms, (0 : ℤ) ≤ x := by
      intro x hx
      rw [← hm] at hx
      rcases List.mem_map.mp hx with ⟨r, hr, hrx⟩
      rw [← hrx]
      exact h r hr
    show decide (List.foldl min m ms < 0) = false
    simp only [decide_eq_false_iff_not, not_lt]
    rcases foldl_min_mem_or_init ms m with he | he
    · rw [he]
      exact hall m (by simp)
    · exact hall _ (List.mem_cons_of_mem _ he)

theorem quality_errors_balance_blind (rows : List FlowRecord) (g : FlowRecord → ℚ) :
    quality_errors (rows.map fun r => { r with outstanding_balance := g r })
      = quality_errors rows := by
  have hm : (rows.map fun r => { r with outstanding_balance := g r }).map
      (fun r => r.month_on_book) = rows.map (fun r => r.month_on_book) := by
    simp [List.map_map]
  have h1 : monthMinNegative (rows.map fun r => { r with outstanding_balance := g r })
      = monthMinNegative rows := by
    unfold monthMinNegative
    rw [hm]
  have h2 : (rows.map fun r => { r with outstanding_balance := g r }).any
      (fun r => decide (r.payments < 0)) = rows.any (fun r => decide (r.payments < 0)) := by
    rw [List.any_map]
    exact rfl
  have h3 : (rows.map fun r => { r with outstanding_balance := g r }).any
      (fun r => decide (r.chargeoffs < 0)) = rows.any (fun r => decide (r.chargeoffs < 0)) := by
    rw [List.any_map]
    exact rfl
  unfold quality_errors
  rw [h1, h2, h3]

theorem quality_errors_eq_nil {rows : List FlowRecord}
    (h : ∀ r ∈ rows, 0 ≤ r.month_on_book ∧ 0 ≤ r.payments ∧ 0 ≤ r.chargeoffs) :
    quality_errors rows = [] := by
  have h1 : monthMinNegative rows = false :=
    monthMinNegative_eq_false (fun r hr => (h r hr).1)
  have h2 : rows.any (fun r => decide (r.payments < 0)) = false := by
    simp only [List.any_eq_false, decide_eq_true_eq, not_lt]
    intro r hr
    exact (h r hr).2.1
  have h3 : rows.any (fun r => decide (r.chargeoffs < 0)) = false := by
    simp only [List.any_eq_false, decide_eq_true_eq, not_lt]
    intro r hr
    exact (h r hr).2.2
  simp [quality_errors, h1, h2, h3]

/-- C10.  With all required columns present, `validate` is total (it is a
Lean function; pandas raises no exception on the zero-balance divisions,
whose `inf`/`nan` results are embedded in `fdiv`), and the error list and
validity flag do not depend on the `outstanding_balance` column at all —
rewriting every balance (e.g. to 0) changes warnings at most.  Consequently a
table whose rows are otherwise in range validates with an empty error list
even when balances are zero. -/
theorem c10_zero_balance_never_errors :
    ∀ (cols : List String) (rows : List FlowRecord) (g : FlowRecord → ℚ),
      REQUIRED_COLUMNS.all (fun c => cols.contains c) = true →
      ((validate_data ⟨cols, rows.map fun r => { r with outstanding_balance := g r }⟩).errors
          = (validate_data ⟨cols, rows⟩).errors
        ∧ (validate_data ⟨cols, rows.map fun r => { r with outstanding_balance := g r }⟩).valid
          = (validate_data ⟨cols, rows⟩).valid)
      ∧ ((∀ r ∈ rows, 0 ≤ r.month_on_book ∧ 0 ≤ r.payments ∧ 0 ≤ r.chargeoffs) →
          (validate_data ⟨cols, rows⟩).valid = true
        ∧ (validate_data ⟨cols, rows⟩).errors = []) := by
  intro cols rows g hcols
  constructor
  · constructor
    · simp only [validate_data]
      rw [hcols]
      simp [quality_errors_balance_blind]
    · simp only [validate_data]
      rw [hcols]
      simp
  · intro h
    constructor
    · simp only [validate_data]
      rw [hcols]
      simp
    · simp only [validate_data]
      rw [hcols]
      simp [quality_errors_eq_nil h]

/-- Witness for C10: a zero-balance row yields warnings at most, no error. -/
theorem c10_zero_balance_never_errors_witness :
    (validate_data ⟨REQUIRED_COLUMNS, [⟨"A", 0, 5, 0, 0⟩]⟩).errors = []
  ∧ (validate_data ⟨REQUIRED_COLUMNS, [⟨"A", 0, 5, 0, 0⟩]⟩).valid = true := by
  have h := c10_zero_balance_never_errors REQUIRED_COLUMNS [⟨"A", 0, 5, 0, 100⟩]
    (fun _ => 0) (by decide)
  have hz := h.2 (by decide)
  exact ⟨h.1.1.trans hz.2, h.1.2.trans hz.1⟩

theorem getFromRates_lookup {rates : List (ℤ × FloatV)} {month : ℤ} {r : FloatV}
    (h : rates.lookup month = some r) : getFromRates rates month = r := by
  unfold getFromRates
  rw [h]

theorem getFromRates_nil (month : ℤ) : getFromRates [] month = .fin 0 := rfl

theorem getFromRates_below {rates : List (ℤ × FloatV)} {month : ℤ}
    (hne : rates ≠ [])
    (hlt : ∀ k ∈ rates.map Prod.fst, month < k) :
    getFromRates rates month = lookupD rates (pyMin (rates.map Prod.fst)) := by
  have hnm : month ∉ rates.map Prod.fst := fun hmem => lt_irrefl month (hlt month hmem)
  have hperm := List.perm_insertionSort (fun a b : ℤ => a ≤ b) (rates.map Prod.fst)
  have hkne : rates.map Prod.fst ≠ [] := by
    simpa using hne
  have havne : (rates.map Prod.fst).insertionSort (· ≤ ·) ≠ [] := by
    intro h0
    rw [h0] at hperm
    exact hkne hperm.nil_eq.symm
  have hpm : pyMin ((rates.map Prod.fst).insertionSort (· ≤ ·)) = pyMin (rates.map Prod.fst) :=
    pyMin_perm hperm
  have c0 : ¬ ((rates.map Prod.fst).insertionSort (· ≤ ·)).isEmpty = true := by
    simp [List.isEmpty_iff, havne]
  have c1 : month < pyMin ((rates.map Prod.fst).insertionSort (· ≤ ·)) := by
    rw [hpm]
    exact hlt _ (pyMin_mem hkne)
  unfold getFromRates
  rw [lookup_eq_none_of_not_mem hnm]
  rw [if_neg c0, if_pos c1, hpm]

theorem getFromRates_above {rates : List (ℤ × FloatV)} {month : ℤ}
    (hne : rates ≠ [])
    (hgt : ∀ k ∈ rates.map Prod.fst, k < month) :
    getFromRates rates month = lookupD rates (pyMax (rates.map Prod.fst)) := by
  have hnm : month ∉ rates.map Prod.fst := fun hmem => lt_irrefl month (hgt month hmem)
  have hperm := List.perm_insertionSort (fun a b : ℤ => a ≤ b) (rates.map Prod.fst)
  have hkne : rates.map Prod.fst ≠ [] := by
    simpa using hne
  have havne : (rates.map Prod.fst).insertionSort (· ≤ ·) ≠ [] := by
    intro h0
    rw [h0] at hperm
    exact hkne hperm.nil_eq.symm
  have hpm : pyMin ((rates.map Prod.fst).insertionSort (· ≤ ·)) = pyMin (rates.map Prod.fst) :=
    pyMin_perm hperm
  have hpM : pyMax ((rates.map Prod.fst).insertionSort (· ≤ ·)) = pyMax (rates.map Prod.fst) :=
    pyMax_perm hperm
  have c0 : ¬ ((rates.map Prod.fst).insertionSort (· ≤ ·)).isEmpty = true := by
    simp [List.isEmpty_iff, havne]
  have c1 : ¬ month < pyMin ((rates.map Prod.fst).insertionSort (· ≤ ·)) := by
    rw [hpm]
    exact not_lt.mpr (le_of_lt (hgt _ (pyMin_mem hkne)))
  have c2 : pyMax ((rates.map Prod.fst).insertionSort (· ≤ ·)) < month := by
    rw [hpM]
    exact hgt _ (pyMax_mem hkne)
  unfold getFromRates
  rw [lookup_eq_none_of_not_mem hnm]
  rw [if_neg c0, if_neg c1, if_pos c2, hpM]

theorem getFromRates_interp {rates : List (ℤ × FloatV)} {month a b : ℤ}
    (hnm : month ∉ rates.map Prod.fst)
    (ha : a ∈ rates.map Prod.fst) (hale : a ≤ month)
    (hb : b ∈ rates.map Prod.fst) (hble : month ≤ b) :
    getFromRates rates month =
      FloatV.add
        (FloatV.mul
          (lookupD rates (pyMax ((rates.map Prod.fst).filter (fun k => decide (k ≤ month)))))
          (.fin (1 - ((month - pyMax ((rates.map Prod.fst).filter (fun k => decide (k ≤ month))) : ℤ) : ℚ) /
            ((pyMin ((rates.map Prod.fst).filter (fun k => decide (month ≤ k)))
              - pyMax ((rates.map Prod.fst).filter (fun k => decide (k ≤ month))) : ℤ) : ℚ))))
        (FloatV.mul
          (lookupD rates (pyMin ((rates.map Prod.fst).filter (fun k => decide (month ≤ k)))))
          (.fin (((month - pyMax ((rates.map Prod.fst).filter (fun k => decide (k ≤ month))) : ℤ) : ℚ) /
            ((pyMin ((rates.map Prod.fst).filter (fun k => decide (month ≤ k)))
              - pyMax ((rates.map Prod.fst).filter (fun k => decide (k ≤ month))) : ℤ) : ℚ)))) := by
  have hperm := List.perm_insertionSort (fun a b : ℤ => a ≤ b) (rates.map Prod.fst)
  have hkne : rates.map Prod.fst ≠ [] := fun h0 => by
    rw [h0] at ha
    exact (List.not_mem_nil a) ha
  have havne : (rates.map Prod.fst).insertionSort (· ≤ ·) ≠ [] := by
    intro h0
    rw [h0] at hperm
    exact hkne hperm.nil_eq.symm
  have hpm : pyMin ((rates.map Prod.fst).insertionSort (· ≤ ·)) = pyMin (rates.map Prod.fst) :=
    pyMin_perm hperm
  have hpM : pyMax ((rates.map Prod.fst).insertionSort (· ≤ ·)) = pyMax (rates.map Prod.fst) :=
    pyMax_perm hperm
  have hlofil : pyMax (((rates.map Prod.fst).insertionSort (· ≤ ·)).filter (fun k => decide (k ≤ month)))
      = pyMax ((rates.map Prod.fst).filter (fun k => decide (k ≤ month))) :=
    pyMax_perm (hperm.filter _)
  have hhifil : pyMin (((rates.map Prod.fst).insertionSort (· ≤ ·)).filter (fun k => decide (month ≤ k)))
      = pyMin ((rates.map Prod.fst).filter (fun k => decide (month ≤ k))) :=
    pyMin_perm (hperm.filter _)
  have hafil : a ∈ (rates.map Prod.fst).filter (fun k => decide (k ≤ month)) :=
    List.mem_filter.mpr ⟨ha, by simpa using hale⟩
  have hbfil : b ∈ (rates.map Prod.fst).filter (fun k => decide (month ≤ k)) :=
    List.mem_filter.mpr ⟨hb, by simpa using hble⟩
  have hloflne : (rates.map Prod.fst).filter (fun k => decide (k ≤ month)) ≠ [] := fun h0 => by
    rw [h0] at hafil
    exact (List.not_mem_nil a) hafil
  have hhiflne : (rates.map Prod.fst).filter (fun k => decide (month ≤ k)) ≠ [] := fun h0 => by
    rw [h0] at hbfil
    exact (List.not_mem_nil b) hbfil
  have hlomem := pyMax_mem hloflne
  have hhimem := pyMin_mem hhiflne
  have hlokey : pyMax ((rates.map Prod.fst).filter (fun k => decide (k ≤ month))) ∈ rates.map Prod.fst :=
    (List.mem_filter.mp hlomem).1
  have hhikey : pyMin ((rates.map Prod.fst).filter (fun k => decide (month ≤ k))) ∈ rates.map Prod.fst :=
    (List.mem_filter.mp hhimem).1
  have hlole : pyMax ((rates.map Prod.fst).filter (fun k => decide (k ≤ month))) ≤ month := by
    have := (List.mem_filter.mp hlomem).2
    simpa using this
  have hhige : month ≤ pyMin ((rates.map Prod.fst).filter (fun k => decide (month ≤ k))) := by
    have := (List.mem_filter.mp hhimem).2
    simpa using this
  have hlolt : pyMax ((rates.map Prod.fst).filter (fun k => decide (k ≤ month))) < month :=
    lt_of_le_of_ne hlole (fun he => hnm (he ▸ hlokey))
  have hhigt : month < pyMin ((rates.map Prod.fst).filter (fun k => decide (month ≤ k))) :=
    lt_of_le_of_ne hhige (fun he => hnm (he ▸ hhikey))
  have c0 : ¬ ((rates.map Prod.fst).insertionSort (· ≤ ·)).isEmpty = true := by
    simp [List.isEmpty_iff, havne]
  have c1 : ¬ month < pyMin ((rates.map Prod.fst).insertionSort (· ≤ ·)) := by
    rw [hpm]
    exact not_lt.mpr (le_trans (pyMin_le ha) hale)
  have c2 : ¬ pyMax ((rates.map Prod.fst).insertionSort (· ≤ ·)) < month := by
    rw [hpM]
    exact not_lt.mpr (le_trans hble (le_pyMax hb))
  have c3 : ¬ pyMax (((rates.map Prod.fst).insertionSort (· ≤ ·)).filter (fun k => decide (k ≤ month)))
      = pyMin (((rates.map Prod.fst).insertionSort (· ≤ ·)).filter (fun k => decide (month ≤ k))) := by
    rw [hlofil, hhifil]
    exact ne_of_lt (lt_trans hlolt hhigt)
  unfold getFromRates
  rw [lookup_eq_none_of_not_mem hnm]
  rw [if_neg c0, if_neg c1, if_neg c2, if_neg c3, hlofil, hhifil]

theorem getFromRates_midpoint {rates : List (ℤ × FloatV)} {month a b : ℤ} {ra rb : ℚ}
    (hab : a < b)
    (hgap : ∀ k ∈ rates.map Prod.fst, ¬ (a < k ∧ k < b))
    (hla : rates.lookup a = some (.fin ra))
    (hlb : rates.lookup b = some (.fin rb))
    (hmid : 2 * month = a + b) :
    getFromRates rates month = .fin ((ra + rb) / 2) := by
  have ha : a ∈ rates.map Prod.fst :=
    List.mem_map.mpr ⟨(a, .fin ra), mem_of_lookup_eq_some hla, rfl⟩
  have hb : b ∈ rates.map Prod.fst :=
    List.mem_map.mpr ⟨(b, .fin rb), mem_of_lookup_eq_some hlb, rfl⟩
  have ham : a < month := by omega
  have hmb : month < b := by omega
  have hnm : month ∉ rates.map Prod.fst := fun hmem => hgap month hmem ⟨ham, hmb⟩
  have hlo : pyMax ((rates.map Prod.fst).filter (fun k => decide (k ≤ month))) = a := by
    have hafil : a ∈ (rates.map Prod.fst).filter (fun k => decide (k ≤ month)) :=
      List.mem_filter.mpr ⟨ha, by simp [le_of_lt ham]⟩
    have hne : (rates.map Prod.fst).filter (fun k => decide (k ≤ month)) ≠ [] := fun h0 => by
      rw [h0] at hafil
      exact (List.not_mem_nil a) hafil
    have hmem := pyMax_mem hne
    rcases List.mem_filter.mp hmem with ⟨hkey, hcond⟩
    have hle : pyMax ((rates.map Prod.fst).filter (fun k => decide (k ≤ month))) ≤ month := by
      simpa using hcond
    have hub : pyMax ((rates.map Prod.fst).filter (fun k => decide (k ≤ month))) ≤ a := by
      by_contra hgt
      push_neg at hgt
      exact hgap _ hkey ⟨hgt, lt_of_le_of_lt hle hmb⟩
    exact le_antisymm hub (le_pyMax hafil)
  have hhi : pyMin ((rates.map Prod.fst).filter (fun k => decide (month ≤ k))) = b := by
    have hbfil : b ∈ (rates.map Prod.fst).filter (fun k => decide (month ≤ k)) :=
      List.mem_filter.mpr ⟨hb, by simp [le_of_lt hmb]⟩
    have hne : (rates.map Prod.fst).filter (fun k => decide (month ≤ k)) ≠ [] := fun h0 => by
      rw [h0] at hbfil
      exact (List.not_mem_nil b) hbfil
    have hmem := pyMin_mem hne
    rcases List.mem_filter.mp hmem with ⟨hkey, hcond⟩
    have hge : month ≤ pyMin ((rates.map Prod.fst).filter (fun k => decide (month ≤ k))) := by
      simpa using hcond
    have hlb2 : b ≤ pyMin ((rates.map Prod.fst).filter (fun k => decide (month ≤ k))) := by
      by_contra hgt
      push_neg at hgt
      exact hgap _ hkey ⟨lt_of_lt_of_le ham hge, hgt⟩
    exact le_antisymm (pyMin_le hbfil) hlb2
  rw [getFromRates_interp hnm ha (le_of_lt ham) hb (le_of_lt hmb), hlo, hhi]
  rw [show lookupD rates a = .fin ra from by simp [lookupD, hla]]
  rw [show lookupD rates b = .fin rb from by simp [lookupD, hlb]]
  have hw : ((month - a : ℤ) : ℚ) / ((b - a : ℤ) : ℚ) = 1/2 := by
    have h2 : (b - a : ℤ) = 2 * (month - a) := by omega
    have hma : ((month - a : ℤ) : ℚ) ≠ 0 := by
      have : (0 : ℤ) < month - a := by omega
      positivity
    rw [h2]
    push_cast at hma
    push_cast
    rw [mul_comm]
    rw [div_mul_eq_div_div]
    rw [div_self hma]
  rw [hw]
  show FloatV.add (.fin (ra * (1 - 1/2))) (.fin (rb * (1/2))) = .fin ((ra + rb) / 2)
  unfold FloatV.add
  norm_num
  ring

/-- C4.  `get_rate` on one stored curve: exact dictionary hit; flat backward
extrapolation to the rate at the minimum known age; flat forward
extrapolation to the rate at the maximum known age; otherwise linear
interpolation `r_lo*(1-w) + r_hi*w` between the nearest known ages below and
at/above the queried age (with `w = (age - age_lo)/(age_hi - age_lo)`), which
at the exact midpoint of two consecutive known finite-rate ages evaluates to
the average of the endpoint rates; and the empty curve answers 0.0
everywhere. -/
theorem c4_get_rate_interpolation :
    (∀ (rates : List (ℤ × FloatV)) (month : ℤ) (r : FloatV),
        rates.lookup month = some r → getFromRates rates month = r)
  ∧ (∀ (month : ℤ), getFromRates [] month = .fin 0)
  ∧ (∀ (rates : List (ℤ × FloatV)) (month : ℤ), rates ≠ [] →
        (∀ k ∈ rates.map Prod.fst, month < k) →
        getFromRates rates month = lookupD rates (pyMin (rates.map Prod.fst)))
  ∧ (∀ (rates : List (ℤ × FloatV)) (month : ℤ), rates ≠ [] →
        (∀ k ∈ rates.map Prod.fst, k < month) →
        getFromRates rates month = lookupD rates (pyMax (rates.map Prod.fst)))
  ∧ (∀ (rates : List (ℤ × FloatV)) (month a b : ℤ),
        month ∉ rates.map Prod.fst →
        a ∈ rates.map Prod.fst → a ≤ month →
        b ∈ rates.map Prod.fst → month ≤ b →
        getFromRates rates month =
          FloatV.add
            (FloatV.mul
              (lookupD rates (pyMax ((rates.map Prod.fst).filter (fun k => decide (k ≤ month)))))
              (.fin (1 - ((month - pyMax ((rates.map Prod.fst).filter (fun k => decide (k ≤ month))) : ℤ) : ℚ) /
                ((pyMin ((rates.map Prod.fst).filter (fun k => decide (month ≤ k)))
                  - pyMax ((rates.map Prod.fst).filter (fun k => decide (k ≤ month))) : ℤ) : ℚ))))
            (FloatV.mul
              (lookupD rates (pyMin ((rates.map Prod.fst).filter (fun k => decide (month ≤ k)))))
              (.fin (((month - pyMax ((rates.map Prod.fst).filter (fun k => decide (k ≤ month))) : ℤ) : ℚ) /
                ((pyMin ((rates.map Prod.fst).filter (fun k => decide (month ≤ k)))
                  - pyMax ((rates.map Prod.fst).filter (fun k => decide (k ≤ month))) : ℤ) : ℚ)))))
  ∧ (∀ (rates : List (ℤ × FloatV)) (month a b : ℤ) (ra rb : ℚ),
        a < b →
        (∀ k ∈ rates.map Prod.fst, ¬ (a < k ∧ k < b)) →
        rates.lookup a = some (.fin ra) →
        rates.lookup b = some (.fin rb) →
        2 * month = a + b →
        getFromRates rates month = .fin ((ra + rb) / 2)) := by
  refine ⟨?_, ?_, ?_, ?_, ?_, ?_⟩
  · intro rates month r h
    exact getFromRates_lookup h
  · intro month
    exact getFromRates_nil month
  · intro rates month hne hlt
    exact getFromRates_below hne hlt
  · intro rates month hne hgt
    exact getFromRates_above hne hgt
  · intro rates month a b hnm ha hale hb hble
    exact getFromRates_interp hnm ha hale hb hble
  · intro rates month a b ra rb hab hgap hla hlb hmid
    exact getFromRates_midpoint hab hgap hla hlb hmid

/-- Witness for C4: a two-point curve at ages 0 and 2 with rates 1/10 and
3/10 answers the stored rate at known ages, the edge rates outside the range,
and the average 1/5 at the midpoint age 1; the empty curve answers 0. -/
theorem c4_get_rate_interpolation_witness :
    getFromRates [((0 : ℤ), FloatV.fin (1/10)), (2, FloatV.fin (3/10))] 1 = .fin (1/5)
  ∧ getFromRates [] 5 = .fin 0
  ∧ getFromRates [((0 : ℤ), FloatV.fin (1/10)), (2, FloatV.fin (3/10))] 0 = .fin (1/10)
  ∧ getFromRates [((0 : ℤ), FloatV.fin (1/10)), (2, FloatV.fin (3/10))] (-7) = .fin (1/10)
  ∧ getFromRates [((0 : ℤ), FloatV.fin (1/10)), (2, FloatV.fin (3/10))] 9 = .fin (3/10) := by
  refine ⟨?_, c4_get_rate_interpolation.2.1 5, ?_, ?_, ?_⟩
  · have h := c4_get_rate_interpolation.2.2.2.2.2
      [((0 : ℤ), FloatV.fin (1/10)), (2, FloatV.fin (3/10))] 1 0 2 (1/10) (3/10)
      (by decide) (by decide) rfl rfl (by decide)
    rw [h]
    with_unfolding_all decide
  · exact c4_get_rate_interpolation.1 _ _ _ rfl
  · have h := c4_get_rate_interpolation.2.2.1
      [((0 : ℤ), FloatV.fin (1/10)), (2, FloatV.fin (3/10))] (-7)
      (by decide) (by decide)
    rw [h]
    with_unfolding_all decide
  · have h := c4_get_rate_interpolation.2.2.2.1
      [((0 : ℤ), FloatV.fin (1/10)), (2, FloatV.fin (3/10))] 9
      (by decide) (by decide)
    rw [h]
    with_unfolding_all decide

theorem uniqueFold_nodup (rows : List FlowRecord) :
    ∀ (acc : List ℤ), acc.Nodup →
      (rows.foldl (fun acc r =>
        if acc.contains r.month_on_book then acc else acc ++ [r.month_on_book]) acc).Nodup := by
  induction rows with
  | nil => intro acc h; simpa using h
  | cons r t ih =>
    intro acc h
    simp only [List.foldl_cons]
    by_cases hc : acc.contains r.month_on_book
    · rw [if_pos hc]
      exact ih acc h
    · rw [if_neg hc]
      apply ih
      have hnm : r.month_on_book ∉ acc := by simpa using hc
      simp [List.nodup_append, h, hnm]

theorem groupAges_nodup (rows : List FlowRecord) : (groupAges rows).Nodup := by
  unfold groupAges
  exact (List.perm_insertionSort _ _).symm.nodup (uniqueFold_nodup rows [] List.nodup_nil)

theorem zip_lookup_get {keys : List ℤ} {vals : List FloatV} (hnd : keys.Nodup) :
    ∀ (i : ℕ) (hk : i < keys.length) (hv : i < vals.length),
      (keys.zip vals).lookup (keys.get ⟨i, hk⟩) = some (vals.get ⟨i, hv⟩) := by
  induction keys generalizing vals with
  | nil => intro i hk; simp at hk
  | cons k kt ih =>
    intro i hk hv
    cases vals with
    | nil => simp at hv
    | cons v vt =>
      cases i with
      | zero => simp [List.lookup]
      | succ n =>
        have hknd := List.nodup_cons.mp hnd
        have hn : n < kt.length := by simpa using hk
        have hv' : n < vt.length := by simpa using hv
        have hne : kt.get ⟨n, hn⟩ ≠ k := fun he => hknd.1 (he ▸ List.get_mem kt n hn)
        show ((k, v) :: kt.zip vt).lookup ((k :: kt).get ⟨n + 1, hk⟩) = _
        have hget : (k :: kt).get ⟨n + 1, hk⟩ = kt.get ⟨n, hn⟩ := rfl
        rw [hget]
        simp only [List.lookup, beq_eq_false_iff_ne.mpr hne]
        exact ih hknd.2 n hn hv'

theorem rollingWindow_length_pos (w : ℕ) (xs : List FloatV) (i : ℕ) (hw : 1 ≤ w)
    (hi : i < xs.length) :
    1 ≤ (rollingWindow w xs i).length := by
  dsimp only [rollingWindow]
  simp only [List.length_take, List.length_drop, inf_eq_min, le_min_iff]
  constructor
  · omega
  · omega

theorem rollingWindow_length_full (w : ℕ) (xs : List FloatV) (i : ℕ)
    (h1 : (w - 1) - (w - 1) / 2 ≤ i) (h2 : i + (w - 1) / 2 < xs.length) :
    (rollingWindow w xs i).length = w := by
  dsimp only [rollingWindow]
  simp only [List.length_take, List.length_drop, inf_eq_min]
  omega

theorem rollingWindow_odd (k : ℕ) (xs : List FloatV) (i : ℕ) :
    rollingWindow (2 * k + 1) xs i = (xs.drop (i - k)).take (i + k + 1 - (i - k)) := by
  dsimp only [rollingWindow]
  congr 1
  · omega
  · congr 1
    omega

theorem rollingMeanCentered_get (w : ℕ) (xs : List FloatV) (i : ℕ)
    (h : i < (rollingMeanCentered w xs).length) :
    (rollingMeanCentered w xs).get ⟨i, h⟩ = meanFV (rollingWindow w xs i) := by
  unfold rollingMeanCentered
  rw [List.get_map, List.get_range]

theorem rollingMeanCentered_length (w : ℕ) (xs : List FloatV) :
    (rollingMeanCentered w xs).length = xs.length := by
  simp [rollingMeanCentered]

theorem rawPaymentRates_length (rows : List FlowRecord) :
    (rawPaymentRates rows).length = (groupAges rows).length := by
  simp [rawPaymentRates]

theorem rawChargeoffRates_length (rows : List FlowRecord) :
    (rawChargeoffRates rows).length = (groupAges rows).length := by
  simp [rawChargeoffRates]

/-- C7.  For `1 < w` the stored curve value at the `i`-th aggregated age is
the mean of the raw rates over the pandas centered window at `i`, that
window always keeps at least one sample and exactly `w` samples away from the
boundaries (it shrinks instead of padding), for an odd window `w = 2k+1` it
is precisely the ages `[i-k, i+k]` clipped to the series, and `w = 1` stores
the raw rates unchanged. -/
theorem c7_centered_smoothing :
    ∀ (w : ℕ) (rows : List FlowRecord),
      (1 < w →
        ∀ (i : ℕ) (h : i < (groupAges rows).length),
          ((fitCurves w rows).payment_hazard.lookup ((groupAges rows).get ⟨i, h⟩)
              = some (meanFV (rollingWindow w (rawPaymentRates rows) i))
            ∧ (fitCurves w rows).chargeoff_hazard.lookup ((groupAges rows).get ⟨i, h⟩)
              = some (meanFV (rollingWindow w (rawChargeoffRates rows) i)))
          ∧ 1 ≤ (rollingWindow w (rawPaymentRates rows) i).length
          ∧ ((w - 1) - (w - 1) / 2 ≤ i → i + (w - 1) / 2 < (groupAges rows).length →
              (rollingWindow w (rawPaymentRates rows) i).length = w))
      ∧ (∀ (k : ℕ) (xs : List FloatV) (i : ℕ),
          rollingWindow (2 * k + 1) xs i = (xs.drop (i - k)).take (i + k + 1 - (i - k)))
      ∧ (w = 1 →
          (fitCurves w rows).payment_hazard = (groupAges rows).zip (rawPaymentRates rows)
        ∧ (fitCurves w rows).chargeoff_hazard = (groupAges rows).zip (rawChargeoffRates rows)) := by
  intro w rows
  refine ⟨?_, fun k xs i => rollingWindow_odd k xs i, ?_⟩
  · intro hw i h
    have hnd := groupAges_nodup rows
    have hlenp : i < (rollingMeanCentered w (rawPaymentRates rows)).length := by
      rw [rollingMeanCentered_length, rawPaymentRates_length]
      exact h
    have hlenc : i < (rollingMeanCentered w (rawChargeoffRates rows)).length := by
      rw [rollingMeanCentered_length, rawChargeoffRates_length]
      exact h
    have hzipp : (fitCurves w rows).payment_hazard
        = (groupAges rows).zip (rollingMeanCentered w (rawPaymentRates rows)) := by
      simp [fitCurves, hw]
    have hzipc : (fitCurves w rows).chargeoff_hazard
        = (groupAges rows).zip (rollingMeanCentered w (rawChargeoffRates rows)) := by
      simp [fitCurves, hw]
    refine ⟨⟨?_, ?_⟩, ?_, ?_⟩
    · rw [hzipp, zip_lookup_get hnd i h hlenp, rollingMeanCentered_get]
    · rw [hzipc, zip_lookup_get hnd i h hlenc, rollingMeanCentered_get]
    · exact rollingWindow_length_pos w _ i (le_of_lt hw)
        (by rw [rawPaymentRates_length]; exact h)
    · intro h1 h2
      exact rollingWindow_length_full w _ i h1
        (by rw [rawPaymentRates_length]; exact h2)
  · intro hw1
    subst hw1
    constructor
    · simp [fitCurves]
    · simp [fitCurves]

/-- Witness for C7: window 3 over the three raw rates 1/10, 2/10, 3/10 stores
the shrunken-edge mean 3/20 at age 0 and the full-window mean 1/5 at age 1. -/
theorem c7_centered_smoothing_witness :
    (fitCurves 3 [⟨"A", 0, 10, 0, 100⟩, ⟨"A", 1, 20, 0, 100⟩,
        ⟨"A", 2, 30, 0, 100⟩]).payment_hazard.lookup 1 = some (.fin (1/5))
  ∧ (fitCurves 3 [⟨"A", 0, 10, 0, 100⟩, ⟨"A", 1, 20, 0, 100⟩,
        ⟨"A", 2, 30, 0, 100⟩]).payment_hazard.lookup 0 = some (.fin (3/20)) := by
  have hlen : (1 : ℕ) < (groupAges [⟨"A", 0, 10, 0, 100⟩, ⟨"A", 1, 20, 0, 100⟩,
      ⟨"A", 2, 30, 0, 100⟩]).length := by
    with_unfolding_all decide
  have hlen0 : (0 : ℕ) < (groupAges [⟨"A", 0, 10, 0, 100⟩, ⟨"A", 1, 20, 0, 100⟩,
      ⟨"A", 2, 30, 0, 100⟩]).length := by
    with_unfolding_all decide
  have h1 := ((c7_centered_smoothing 3 [⟨"A", 0, 10, 0, 100⟩, ⟨"A", 1, 20, 0, 100⟩,
      ⟨"A", 2, 30, 0, 100⟩]).1 (by decide) 1 hlen).1.1
  have h0 := ((c7_centered_smoothing 3 [⟨"A", 0, 10, 0, 100⟩, ⟨"A", 1, 20, 0, 100⟩,
      ⟨"A", 2, 30, 0, 100⟩]).1 (by decide) 0 hlen0).1.1
  constructor
  · rw [show ((groupAges [⟨"A", 0, 10, 0, 100⟩, ⟨"A", 1, 20, 0, 100⟩,
        ⟨"A", 2, 30, 0, 100⟩]).get ⟨1, hlen⟩) = (1 : ℤ) from by with_unfolding_all rfl] at h1
    rw [h1]
    with_unfolding_all decide
  · rw [show ((groupAges [⟨"A", 0, 10, 0, 100⟩, ⟨"A", 1, 20, 0, 100⟩,
        ⟨"A", 2, 30, 0, 100⟩]).get ⟨0, hlen0⟩) = (0 : ℤ) from by with_unfolding_all rfl] at h0
    rw [h0]
    with_unfolding_all decide

theorem get_hazard_rate_payment {est : HazardRateEstimator} {c : HazardCurves}
    (h : est.hazard_curves = some c) (month : ℤ) :
    est.get_hazard_rate month "payment" = .ok (getFromRates c.payment_hazard month) := by
  unfold HazardRateEstimator.get_hazard_rate
  rw [h]
  dsimp only
  rw [show ("payment" ++ "_hazard" : String) = "payment_hazard" from rfl]
  rw [if_neg (by decide), if_pos rfl]

theorem get_hazard_rate_chargeoff {est : HazardRateEstimator} {c : HazardCurves}
    (h : est.hazard_curves = some c) (month : ℤ) :
    est.get_hazard_rate month "chargeoff" = .ok (getFromRates c.chargeoff_hazard month) := by
  unfold HazardRateEstimator.get_hazard_rate
  rw [h]
  dsimp only
  rw [show ("chargeoff" ++ "_hazard" : String) = "chargeoff_hazard" from rfl]
  rw [if_neg (by decide), if_neg (by decide), if_pos rfl]

theorem forecastLoop_fitted_spec {est : HazardRateEstimator} {c : HazardCurves}
    (h : est.hazard_curves = some c) (seg : String) :
    ∀ (fuel : ℕ) (month : ℤ) (bal : FloatV),
      ∃ fr, forecastLoop est seg fuel month bal = .ok fr
        ∧ (∀ r ∈ fr, r.forecast_flag = .Forecast)
        ∧ (∀ r ∈ fr, r.segment_id = seg)
        ∧ (∀ r ∈ fr, FloatV.le r.outstanding_balance (.fin (1/100)) = false)
        ∧ fr.map (fun r => r.month_on_book) = List.map (fun j : ℕ => month + (j : ℤ)) (List.range fr.length)
        ∧ fr.length ≤ fuel := by
  intro fuel
  induction fuel with
  | zero =>
    intro month bal
    exact ⟨[], rfl, by simp, by simp, by simp, by simp, by simp⟩
  | succ n ih =>
    intro month bal
    by_cases hb : FloatV.le bal (.fin (1/100)) = true
    · refine ⟨[], ?_, by simp, by simp, by simp, by simp, by simp⟩
      simp only [forecastLoop]
      rw [if_pos hb]
    · have hb' : FloatV.le bal (.fin (1/100)) = false := by
        cases hx : FloatV.le bal (.fin (1/100)) with
        | true => exact absurd hx hb
        | false => rfl
      rcases ih (month + 1)
        (FloatV.max0 (FloatV.sub (FloatV.sub bal (FloatV.mul bal (getFromRates c.payment_hazard month)))
          (FloatV.mul bal (getFromRates c.chargeoff_hazard month)))) with
        ⟨fr, hfr, hflag, hseg, hfloor, hmonths, hlen⟩
      refine ⟨⟨seg, month, bal, FloatV.mul bal (getFromRates c.payment_hazard month),
        FloatV.mul bal (getFromRates c.chargeoff_hazard month), .Forecast⟩ :: fr, ?_, ?_, ?_, ?_, ?_, ?_⟩
      · simp only [forecastLoop]
        rw [if_neg hb]
        rw [get_hazard_rate_payment h, get_hazard_rate_chargeoff h]
        show (forecastLoop est seg n (month + 1) _).bind _ = _
        rw [hfr]
        rfl
      · intro r hr
        rcases List.mem_cons.mp hr with hr | hr
        · rw [hr]
        · exact hflag r hr
      · intro r hr
        rcases List.mem_cons.mp hr with hr | hr
        · rw [hr]
        · exact hseg r hr
      · intro r hr
        rcases List.mem_cons.mp hr with hr | hr
        · rw [hr]
          exact hb'
        · exact hfloor r hr
      · rw [List.map_cons, hmonths, List.length_cons, List.range_succ_eq_map,
          List.map_cons, List.map_map]
        simp only [List.cons.injEq]
        refine ⟨by simp, ?_⟩
        apply List.map_congr_left
        intro a _
        show month + 1 + (a : ℤ) = month + (((a : ℕ).succ : ℕ) : ℤ)
        push_cast
        ring
      · simpa using hlen

theorem lookupD_fin_nonneg {rates : List (ℤ × FloatV)} (h : finNonnegRates rates)
    {k : ℤ} (hk : k ∈ rates.map Prod.fst) :
    ∃ q, lookupD rates k = .fin q ∧ 0 ≤ q := by
  rcases lookup_isSome_of_mem hk with ⟨v, hv⟩
  rcases h (k, v) (mem_of_lookup_eq_some hv) with ⟨q, hq, hq0⟩
  refine ⟨q, ?_, hq0⟩
  simp only [lookupD, hv, Option.getD_some]
  exact hq

theorem getFromRates_fin_nonneg {rates : List (ℤ × FloatV)} (h : finNonnegRates rates)
    (month : ℤ) :
    ∃ q, getFromRates rates month = .fin q ∧ 0 ≤ q := by
  cases hl : rates.lookup month with
  | some v =>
    rcases h (month, v) (mem_of_lookup_eq_some hl) with ⟨q, hq, hq0⟩
    refine ⟨q, ?_, hq0⟩
    rw [getFromRates_lookup hl]
    exact hq
  | none =>
    unfold getFromRates
    rw [hl]
    dsimp only
    by_cases h0 : ((rates.map Prod.fst).insertionSort (· ≤ ·)).isEmpty = true
    · rw [if_pos h0]
      exact ⟨0, rfl, le_refl 0⟩
    · rw [if_neg h0]
      have hperm := List.perm_insertionSort (fun a b : ℤ => a ≤ b) (rates.map Prod.fst)
      have havne : (rates.map Prod.fst).insertionSort (· ≤ ·) ≠ [] := by
        intro he
        rw [he] at h0
        exact h0 rfl
      have hkne : rates.map Prod.fst ≠ [] := by
        intro he
        exact havne (by
          have : ((rates.map Prod.fst).insertionSort (· ≤ ·)).length = (0 : ℕ) := by
            rw [hperm.length_eq, he]
            rfl
          exact List.length_eq_zero.mp this)
      have hpm : pyMin ((rates.map Prod.fst).insertionSort (· ≤ ·)) = pyMin (rates.map Prod.fst) :=
        pyMin_perm hperm
      have hpM : pyMax ((rates.map Prod.fst).insertionSort (· ≤ ·)) = pyMax (rates.map Prod.fst) :=
        pyMax_perm hperm
      by_cases h1 : month < pyMin ((rates.map Prod.fst).insertionSort (· ≤ ·))
      · rw [if_pos h1, hpm]
        exact lookupD_fin_nonneg h (pyMin_mem hkne)
      · rw [if_neg h1]
        by_cases h2 : pyMax ((rates.map Prod.fst).insertionSort (· ≤ ·)) < month
        · rw [if_pos h2, hpM]
          exact lookupD_fin_nonneg h (pyMax_mem hkne)
        · rw [if_neg h2]
          have hlofil : pyMax (((rates.map Prod.fst).insertionSort (· ≤ ·)).filter
              (fun k => decide (k ≤ month)))
              = pyMax ((rates.map Prod.fst).filter (fun k => decide (k ≤ month))) :=
            pyMax_perm (hperm.filter _)
          have hhifil : pyMin (((rates.map Prod.fst).insertionSort (· ≤ ·)).filter
              (fun k => decide (month ≤ k)))
              = pyMin ((rates.map Prod.fst).filter (fun k => decide (month ≤ k))) :=
            pyMin_perm (hperm.filter _)
          have hminmem := pyMin_mem hkne
          have hmaxmem := pyMax_mem hkne
          have hminle : pyMin (rates.map Prod.fst) ≤ month := by
            rw [hpm] at h1
            omega
          have hmaxge : month ≤ pyMax (rates.map Prod.fst) := by
            rw [hpM] at h2
            omega
          have hafil : pyMin (rates.map Prod.fst)
              ∈ (rates.map Prod.fst).filter (fun k => decide (k ≤ month)) :=
            List.mem_filter.mpr ⟨hminmem, by simpa using hminle⟩
          have hbfil : pyMax (rates.map Prod.fst)
              ∈ (rates.map Prod.fst).filter (fun k => decide (month ≤ k)) :=
            List.mem_filter.mpr ⟨hmaxmem, by simpa using hmaxge⟩
          have hloflne : (rates.map Prod.fst).filter (fun k => decide (k ≤ month)) ≠ [] :=
            fun he => by
              rw [he] at hafil
              exact (List.not_mem_nil _) hafil
          have hhiflne : (rates.map Prod.fst).filter (fun k => decide (month ≤ k)) ≠ [] :=
            fun he => by
              rw [he] at hbfil
              exact (List.not_mem_nil _) hbfil
          have hlomem := pyMax_mem hloflne
          have hhimem := pyMin_mem hhiflne
          have hlokey := (List.mem_filter.mp hlomem).1
          have hhikey := (List.mem_filter.mp hhimem).1
          have hlole : pyMax ((rates.map Prod.fst).filter (fun k => decide (k ≤ month))) ≤ month := by
            have := (List.mem_filter.mp hlomem).2
            simpa using this
          have hhige : month ≤ pyMin ((rates.map Prod.fst).filter (fun k => decide (month ≤ k))) := by
            have := (List.mem_filter.mp hhimem).2
            simpa using this
          by_cases h3 : pyMax (((rates.map Prod.fst).insertionSort (· ≤ ·)).filter
              (fun k => decide (k ≤ month)))
              = pyMin (((rates.map Prod.fst).insertionSort (· ≤ ·)).filter
              (fun k => decide (month ≤ k)))
          · rw [if_pos h3, hlofil]
            exact lookupD_fin_nonneg h hlokey
          · rw [if_neg h3, hlofil, hhifil]
            rcases lookupD_fin_nonneg h hlokey with ⟨qa, hqa, hqa0⟩
            rcases lookupD_fin_nonneg h hhikey with ⟨qb, hqb, hqb0⟩
            rw [hqa, hqb]
            have hlonehi : pyMax ((rates.map Prod.fst).filter (fun k => decide (k ≤ month)))
                < pyMin ((rates.map Prod.fst).filter (fun k => decide (month ≤ k))) := by
              rw [hlofil, hhifil] at h3
              rcases lt_or_le (pyMax ((rates.map Prod.fst).filter (fun k => decide (k ≤ month))))
                (pyMin ((rates.map Prod.fst).filter (fun k => decide (month ≤ k)))) with hlt | hle
              · exact hlt
              · exact absurd (le_antisymm (le_trans hlole hhige) hle) h3
            set lo := pyMax ((rates.map Prod.fst).filter (fun k => decide (k ≤ month))) with hlodef
            set hi := pyMin ((rates.map Prod.fst).filter (fun k => decide (month ≤ k))) with hhidef
            have hden : (0 : ℚ) < ((hi - lo : ℤ) : ℚ) := by
              have : (0 : ℤ) < hi - lo := by omega
              exact_mod_cast this
            have hw0 : 0 ≤ ((month - lo : ℤ) : ℚ) / ((hi - lo : ℤ) : ℚ) := by
              apply div_nonneg _ (le_of_lt hden)
              have : (0 : ℤ) ≤ month - lo := by omega
              exact_mod_cast this
            have hw1 : ((month - lo : ℤ) : ℚ) / ((hi - lo : ℤ) : ℚ) ≤ 1 := by
              rw [div_le_one hden]
              have : (month - lo : ℤ) ≤ (hi - lo : ℤ) := by omega
              exact_mod_cast this
            refine ⟨qa * (1 - ((month - lo : ℤ) : ℚ) / ((hi - lo : ℤ) : ℚ))
              + qb * (((month - lo : ℤ) : ℚ) / ((hi - lo : ℤ) : ℚ)), rfl, ?_⟩
            have h1' : 0 ≤ qa * (1 - ((month - lo : ℤ) : ℚ) / ((hi - lo : ℤ) : ℚ)) :=
              mul_nonneg hqa0 (by linarith)
            have h2' : 0 ≤ qb * (((month - lo : ℤ) : ℚ) / ((hi - lo : ℤ) : ℚ)) :=
              mul_nonneg hqb0 hw0
            linarith

theorem mul_fin (a b : ℚ) : FloatV.mul (.fin a) (.fin b) = .fin (a * b) := rfl

theorem sub_fin (a b : ℚ) : FloatV.sub (.fin a) (.fin b) = .fin (a - b) := by
  simp [FloatV.sub, FloatV.add, FloatV.neg, sub_eq_add_neg]

theorem max0_fin (x : ℚ) : FloatV.max0 (.fin x) = .fin (max 0 x) := by
  unfold FloatV.max0 FloatV.lt
  by_cases h : 0 < x
  · rw [if_pos (by simpa using h)]
    rw [max_eq_right (le_of_lt h)]
  · rw [if_neg (by simpa using h)]
    rw [max_eq_left (not_lt.mp h)]

theorem forecastLoop_fitted_nonincreasing {est : HazardRateEstimator} {c : HazardCurves}
    (h : est.hazard_curves = some c)
    (hp : finNonnegRates c.payment_hazard) (hc : finNonnegRates c.chargeoff_hazard)
    (seg : String) :
    ∀ (fuel : ℕ) (month : ℤ) (q : ℚ),
      ∃ fr, forecastLoop est seg fuel month (.fin q) = .ok fr
        ∧ (∀ r ∈ fr, ∃ b, r.outstanding_balance = FloatV.fin b ∧ b ≤ q)
        ∧ nonIncreasingFV (fr.map (fun r => r.outstanding_balance)) = true := by
  intro fuel
  induction fuel with
  | zero =>
    intro month q
    exact ⟨[], rfl, by simp, rfl⟩
  | succ n ih =>
    intro month q
    by_cases hb : FloatV.le (.fin q) (.fin (1/100)) = true
    · refine ⟨[], ?_, by simp, rfl⟩
      simp only [forecastLoop]
      rw [if_pos hb]
    · have hq100 : (1 : ℚ)/100 < q := by
        by_contra hle
        push_neg at hle
        exact hb (by simpa [FloatV.le] using hle)
      have hq0 : (0 : ℚ) ≤ q := le_of_lt (lt_trans (by norm_num) hq100)
      rcases getFromRates_fin_nonneg hp month with ⟨pq, hpq, hpq0⟩
      rcases getFromRates_fin_nonneg hc month with ⟨cq, hcq, hcq0⟩
      rcases ih (month + 1) (max 0 (q - q * pq - q * cq)) with ⟨fr, hfr, hbound, hni⟩
      refine ⟨⟨seg, month, .fin q, FloatV.mul (.fin q) (getFromRates c.payment_hazard month),
        FloatV.mul (.fin q) (getFromRates c.chargeoff_hazard month), .Forecast⟩ :: fr,
        ?_, ?_, ?_⟩
      · simp only [forecastLoop]
        rw [if_neg hb]
        rw [get_hazard_rate_payment h, get_hazard_rate_chargeoff h]
        show (forecastLoop est seg n (month + 1) _).bind _ = _
        rw [show FloatV.max0 (FloatV.sub (FloatV.sub (.fin q)
            (FloatV.mul (.fin q) (getFromRates c.payment_hazard month)))
            (FloatV.mul (.fin q) (getFromRates c.chargeoff_hazard month)))
            = FloatV.fin (max 0 (q - q * pq - q * cq)) from by
          rw [hpq, hcq, mul_fin, mul_fin, sub_fin, sub_fin, max0_fin]]
        rw [hfr]
        rfl
      · intro r hr
        rcases List.mem_cons.mp hr with hr | hr
        · exact ⟨q, by rw [hr], le_refl q⟩
        · rcases hbound r hr with ⟨b, hbeq, hble⟩
          refine ⟨b, hbeq, le_trans hble ?_⟩
          have hpc : 0 ≤ q * pq + q * cq := by
            have := mul_nonneg hq0 hpq0
            have := mul_nonneg hq0 hcq0
            linarith
          have : q - q * pq - q * cq ≤ q := by linarith
          exact max_le hq0 this
      · cases fr with
        | nil => rfl
        | cons r2 rest =>
          have hle2 : FloatV.le r2.outstanding_balance (.fin q) = true := by
            rcases hbound r2 (by simp) with ⟨b, hbeq, hble⟩
            have hbq : b ≤ q := by
              have hpc : 0 ≤ q * pq + q * cq := by
                have := mul_nonneg hq0 hpq0
                have := mul_nonneg hq0 hcq0
                linarith
              have : q - q * pq - q * cq ≤ q := by linarith
              exact le_trans hble (max_le hq0 this)
            rw [hbeq]
            simpa [FloatV.le] using hbq
          show (FloatV.le r2.outstanding_balance (.fin q)
            && nonIncreasingFV (r2.outstanding_balance :: rest.map (fun r => r.outstanding_balance)))
            = true
          rw [hle2]
          rw [show (r2.outstanding_balance :: rest.map (fun r => r.outstanding_balance))
              = (r2 :: rest).map (fun r => r.outstanding_balance) from rfl]
          rw [hni]
          rfl

theorem orderedInsert_append_of_le {α : Type} (r : α → α → Prop) [DecidableRel r]
    (a : α) (X F : List α) (hF : ∀ y ∈ F, r a y) :
    List.orderedInsert r a (X ++ F) = List.orderedInsert r a X ++ F := by
  induction X with
  | nil =>
    cases F with
    | nil => rfl
    | cons f t => simp [List.orderedInsert, hF f (by simp)]
  | cons x X' ih =>
    by_cases hx : r a x
    · simp [List.orderedInsert, hx]
    · simp [List.orderedInsert, hx, ih]

theorem insertionSort_append_sorted {α : Type} (r : α → α → Prop) [DecidableRel r]
    (A F : List α)
    (hAF : ∀ a ∈ A, ∀ f ∈ F, r a f) (hF : List.Sorted r F) :
    List.insertionSort r (A ++ F) = List.insertionSort r A ++ F := by
  induction A with
  | nil => simpa using hF.insertionSort_eq
  | cons a A' ih =>
    simp only [List.cons_append, List.insertionSort, List.append_eq]
    rw [ih (fun x hx f hf => hAF x (List.mem_cons_of_mem _ hx) f hf)]
    exact orderedInsert_append_of_le r a _ F (fun f hf => hAF a (List.mem_cons_self _ _) f hf)

theorem generate_forecast_fitted (est : HazardRateEstimator)
    (r0 : FlowRecord) (rs : List FlowRecord) (max_month : ℤ)
    {lastm : ℤ} (hlast : lastm = pyMax ((r0 :: rs).map (fun r => r.month_on_book)))
    {lr : FlowRecord} (hlr : lr = ((r0 :: rs).filter (fun r => r.month_on_book = lastm)).headD r0)
    {fr : List ForecastRow}
    (hfr : forecastLoop est lr.segment_id (max_month - lastm).toNat (lastm + 1)
        (.fin (lr.outstanding_balance - lr.payments - lr.chargeoffs)) = .ok fr) :
    generate_forecast est (r0 :: rs) max_month
      = .ok (List.insertionSort (fun a b => a.month_on_book ≤ b.month_on_book)
          (actualRowsOf (r0 :: rs) ++ fr)) := by
  subst hlast
  subst hlr
  unfold generate_forecast
  dsimp only
  rw [hfr]
  rfl

theorem generate_forecast_structure {est : HazardRateEstimator} {c : HazardCurves}
    (h : est.hazard_curves = some c)
    (r0 : FlowRecord) (rs : List FlowRecord) (max_month : ℤ)
    {lastm : ℤ} (hlast : lastm = pyMax ((r0 :: rs).map (fun r => r.month_on_book)))
    {lr : FlowRecord} (hlr : lr = ((r0 :: rs).filter (fun r => r.month_on_book = lastm)).headD r0)
    {out : List ForecastRow}
    (hout : generate_forecast est (r0 :: rs) max_month = .ok out) :
    ∃ fr, forecastLoop est lr.segment_id (max_month - lastm).toNat (lastm + 1)
            (.fin (lr.outstanding_balance - lr.payments - lr.chargeoffs)) = .ok fr
      ∧ out = List.insertionSort (fun a b => a.month_on_book ≤ b.month_on_book)
            (actualRowsOf (r0 :: rs)) ++ fr
      ∧ out.filter (fun r => decide (r.forecast_flag = .Forecast)) = fr
      ∧ fr.map (fun r => r.month_on_book)
          = List.map (fun j : ℕ => lastm + 1 + (j : ℤ)) (List.range fr.length)
      ∧ fr.length ≤ (max_month - lastm).toNat
      ∧ (∀ r ∈ fr, FloatV.le r.outstanding_balance (.fin (1/100)) = false)
      ∧ List.Pairwise (fun a b : ForecastRow => a.month_on_book ≤ b.month_on_book) out := by
  subst hlast
  subst hlr
  rcases forecastLoop_fitted_spec h
      (((r0 :: rs).filter (fun r =>
        r.month_on_book = pyMax ((r0 :: rs).map (fun r => r.month_on_book)))).headD r0).segment_id
      (max_month - pyMax ((r0 :: rs).map (fun r => r.month_on_book))).toNat
      (pyMax ((r0 :: rs).map (fun r => r.month_on_book)) + 1)
      (.fin ((((r0 :: rs).filter (fun r =>
          r.month_on_book = pyMax ((r0 :: rs).map (fun r => r.month_on_book)))).headD
          r0).outstanding_balance
        - (((r0 :: rs).filter (fun r =>
          r.month_on_book = pyMax ((r0 :: rs).map (fun r => r.month_on_book)))).headD r0).payments
        - (((r0 :: rs).filter (fun r =>
          r.month_on_book = pyMax ((r0 :: rs).map (fun r => r.month_on_book)))).headD
          r0).chargeoffs)) with
    ⟨fr, hfr, hflag, hseg, hfloor, hmonths, hlen⟩
  have hout2 := generate_forecast_fitted est r0 rs max_month rfl rfl hfr
  have houteq : out = List.insertionSort (fun a b => a.month_on_book ≤ b.month_on_book)
      (actualRowsOf (r0 :: rs) ++ fr) := by
    have := hout.symm.trans hout2
    exact (Except.ok.injEq _ _).mp this
  have hA : ∀ a ∈ actualRowsOf (r0 :: rs),
      a.month_on_book ≤ pyMax ((r0 :: rs).map (fun r => r.month_on_book)) := by
    intro a ha
    rcases List.mem_map.mp ha with ⟨r, hr, hre⟩
    rw [← hre]
    exact le_pyMax (List.mem_map_of_mem _ hr)
  have hFm : ∀ f ∈ fr,
      pyMax ((r0 :: rs).map (fun r => r.month_on_book)) + 1 ≤ f.month_on_book := by
    intro f hf
    have hmem : f.month_on_book ∈ fr.map (fun r => r.month_on_book) :=
      List.mem_map_of_mem _ hf
    rw [hmonths] at hmem
    rcases List.mem_map.mp hmem with ⟨j, _, hje⟩
    omega
  have hAF : ∀ a ∈ actualRowsOf (r0 :: rs), ∀ f ∈ fr,
      a.month_on_book ≤ f.month_on_book := by
    intro a ha f hf
    have := hA a ha
    have := hFm f hf
    omega
  have hpair : (fr.map (fun r => r.month_on_book)).Pairwise (· ≤ ·) := by
    rw [hmonths]
    rw [List.pairwise_map]
    exact (List.pairwise_lt_range _).imp (fun hab => by omega)
  have hsorted_fr : List.Sorted (fun a b : ForecastRow => a.month_on_book ≤ b.month_on_book) fr :=
    List.pairwise_map.mp hpair
  have hsplit : List.insertionSort (fun a b : ForecastRow => a.month_on_book ≤ b.month_on_book)
      (actualRowsOf (r0 :: rs) ++ fr)
      = List.insertionSort (fun a b => a.month_on_book ≤ b.month_on_book)
          (actualRowsOf (r0 :: rs)) ++ fr :=
    insertionSort_append_sorted _ _ _ hAF hsorted_fr
  have houtsplit : out = List.insertionSort (fun a b => a.month_on_book ≤ b.month_on_book)
      (actualRowsOf (r0 :: rs)) ++ fr := by
    rw [houteq, hsplit]
  refine ⟨fr, hfr, houtsplit, ?_, hmonths, hlen, hfloor, ?_⟩
  · rw [houtsplit, List.filter_append]
    have hfA : (List.insertionSort (fun a b : ForecastRow => a.month_on_book ≤ b.month_on_book)
        (actualRowsOf (r0 :: rs))).filter (fun r => decide (r.forecast_flag = .Forecast)) = [] := by
      rw [List.filter_eq_nil_iff]
      intro a ha
      have ha2 : a ∈ actualRowsOf (r0 :: rs) := (List.mem_insertionSort _).mp ha
      rcases List.mem_map.mp ha2 with ⟨r, _, hre⟩
      rw [← hre]
      simp
    have hff : fr.filter (fun r => decide (r.forecast_flag = .Forecast)) = fr := by
      rw [List.filter_eq_self]
      intro a ha
      simp [hflag a ha]
    rw [hfA, hff, List.nil_append]
  · haveI : IsTotal ForecastRow (fun a b => a.month_on_book ≤ b.month_on_book) :=
      ⟨fun a b => le_total a.month_on_book b.month_on_book⟩
    haveI : IsTrans ForecastRow (fun a b => a.month_on_book ≤ b.month_on_book) :=
      ⟨fun _ _ _ hab hbc => le_trans hab hbc⟩
    rw [houteq]
    exact List.sorted_insertionSort _ _

theorem forecastLoop_stop_stable {est : HazardRateEstimator} {c : HazardCurves}
    (h : est.hazard_curves = some c) (seg : String) :
    ∀ (fuel fuel' : ℕ) (month : ℤ) (bal : FloatV) (fr : List ForecastRow),
      forecastLoop est seg fuel month bal = .ok fr → fr.length < fuel → fuel ≤ fuel' →
      forecastLoop est seg fuel' month bal = .ok fr := by
  intro fuel
  induction fuel with
  | zero =>
    intro fuel' month bal fr _ hlt
    omega
  | succ n ih =>
    intro fuel' month bal fr hfr hlt hle
    rcases Nat.exists_eq_add_of_le hle with ⟨m, hm⟩
    cases hfuel' : fuel' with
    | zero => omega
    | succ m' =>
      by_cases hb : FloatV.le bal (.fin (1/100)) = true
      · have hfr0 : fr = [] := by
          have : forecastLoop est seg (n + 1) month bal = .ok [] := by
            simp only [forecastLoop]
            rw [if_pos hb]
          rw [this] at hfr
          exact ((Except.ok.injEq _ _).mp hfr).symm
        subst hfr0
        simp only [forecastLoop]
        rw [if_pos hb]
      · have hstep : forecastLoop est seg (n + 1) month bal
            = (forecastLoop est seg n (month + 1)
                (FloatV.max0 (FloatV.sub (FloatV.sub bal
                  (FloatV.mul bal (getFromRates c.payment_hazard month)))
                  (FloatV.mul bal (getFromRates c.chargeoff_hazard month))))).bind
              (fun rest => .ok (⟨seg, month, bal,
                FloatV.mul bal (getFromRates c.payment_hazard month),
                FloatV.mul bal (getFromRates c.chargeoff_hazard month), .Forecast⟩ :: rest)) := by
          simp only [forecastLoop]
          rw [if_neg hb]
          rw [get_hazard_rate_payment h, get_hazard_rate_chargeoff h]
          rfl
        rw [hstep] at hfr
        cases hrec : forecastLoop est seg n (month + 1)
            (FloatV.max0 (FloatV.sub (FloatV.sub bal
              (FloatV.mul bal (getFromRates c.payment_hazard month)))
              (FloatV.mul bal (getFromRates c.chargeoff_hazard month)))) with
        | error e =>
          rw [hrec] at hfr
          exact absurd hfr (by simp [Except.bind])
        | ok rest =>
          rw [hrec] at hfr
          have hfrval : fr = ⟨seg, month, bal,
              FloatV.mul bal (getFromRates c.payment_hazard month),
              FloatV.mul bal (getFromRates c.chargeoff_hazard month), .Forecast⟩ :: rest := by
            have : (Except.ok rest).bind (fun rest => (Except.ok (⟨seg, month, bal,
                FloatV.mul bal (getFromRates c.payment_hazard month),
                FloatV.mul bal (getFromRates c.chargeoff_hazard month),
                .Forecast⟩ :: rest) : Except ModelError (List ForecastRow)))
                = .ok (⟨seg, month, bal,
                  FloatV.mul bal (getFromRates c.payment_hazard month),
                  FloatV.mul bal (getFromRates c.chargeoff_hazard month), .Forecast⟩ :: rest) := rfl
            rw [this] at hfr
            exact ((Except.ok.injEq _ _).mp hfr).symm
          have hrest : forecastLoop est seg m' (month + 1)
              (FloatV.max0 (FloatV.sub (FloatV.sub bal
                (FloatV.mul bal (getFromRates c.payment_hazard month)))
                (FloatV.mul bal (getFromRates c.chargeoff_hazard month)))) = .ok rest := by
            apply ih m' (month + 1) _ rest hrec
            · rw [hfrval] at hlt
              simpa using hlt
            · omega
          simp only [forecastLoop]
          rw [if_neg hb]
          rw [get_hazard_rate_payment h, get_hazard_rate_chargeoff h]
          show (forecastLoop est seg m' (month + 1) _).bind _ = _
          rw [hrest]
          rw [hfrval]
          rfl

theorem lt_zero_false_of_le_floor_false {v : FloatV}
    (h : FloatV.le v (.fin (1/100)) = false) : FloatV.lt v (.fin 0) = false := by
  cases v with
  | fin b =>
    simp only [FloatV.le, decide_eq_false_iff_not, not_le] at h
    simp only [FloatV.lt, decide_eq_false_iff_not, not_lt]
    linarith
  | inf => rfl
  | neginf => simp [FloatV.le] at h
  | nan => rfl

/-- C5 as stated is false: `extend` copies the actual rows verbatim, so a
negative actual balance reaches the output, and with a (validly trained)
curve whose stored rate is negative the forecast balances grow.  The first
block shows the training table passes validation; the second a returned
sequence containing a negative balance; the third a returned sequence whose
balances increase. -/
theorem c5_balance_counterexample :
    ((validate_data ⟨REQUIRED_COLUMNS, [⟨"T", 0, 50, 0, -100⟩]⟩).valid = true
      ∧ (validate_data ⟨REQUIRED_COLUMNS, [⟨"T", 0, 50, 0, -100⟩]⟩).errors = [])
  ∧ (generate_forecast ((⟨1, none⟩ : HazardRateEstimator).fit [⟨"T", 0, 50, 0, -100⟩])
        [⟨"A", 0, 0, 0, -50⟩] 5
      = .ok [⟨"A", 0, .fin (-50), .fin 0, .fin 0, .Actual⟩]
    ∧ FloatV.lt (FloatV.fin (-50)) (.fin 0) = true)
  ∧ (generate_forecast ((⟨1, none⟩ : HazardRateEstimator).fit [⟨"T", 0, 50, 0, -100⟩])
        [⟨"A", 0, 0, 0, 100⟩] 2
      = .ok [⟨"A", 0, .fin 100, .fin 0, .fin 0, .Actual⟩,
             ⟨"A", 1, .fin 100, .fin (-50), .fin 0, .Forecast⟩,
             ⟨"A", 2, .fin 150, .fin (-75), .fin 0, .Forecast⟩]
    ∧ nonIncreasingFV [FloatV.fin 100, FloatV.fin 100, FloatV.fin 150] = false) := by
  refine ⟨⟨?_, ?_⟩, ⟨?_, ?_⟩, ⟨?_, ?_⟩⟩
  · with_unfolding_all decide
  · with_unfolding_all decide
  · with_unfolding_all rfl
  · with_unfolding_all decide
  · with_unfolding_all rfl
  · with_unfolding_all decide

/-- C5 amended.  Restricted to the `Forecast`-flagged rows the claim holds:
every emitted forecast row's balance is strictly above the $0.01 floor
(hence never negative), and when every stored rate is finite and
non-negative the forecast balances are non-increasing in output order.
The `Actual` rows are copied verbatim from the caller's input and are not
constrained. -/
theorem c5_forecast_balance_amended :
    ∀ (est : HazardRateEstimator) (c : HazardCurves), est.hazard_curves = some c →
    ∀ (rows : List FlowRecord) (max_month : ℤ) (out : List ForecastRow),
      generate_forecast est rows max_month = .ok out →
      (∀ r ∈ out, r.forecast_flag = .Forecast →
          FloatV.lt r.outstanding_balance (.fin 0) = false
          ∧ FloatV.le r.outstanding_balance (.fin (1/100)) = false)
      ∧ (finNonnegRates c.payment_hazard → finNonnegRates c.chargeoff_hazard →
          nonIncreasingFV ((out.filter (fun r => decide (r.forecast_flag = .Forecast))).map
            (fun r => r.outstanding_balance)) = true) := by
  intro est c h rows max_month out hout
  cases rows with
  | nil => simp [generate_forecast] at hout
  | cons r0 rs =>
    rcases generate_forecast_structure h r0 rs max_month rfl rfl hout with
      ⟨fr, hfr, hsplit, hfilter, hmonths, hlen, hfloor, hpair⟩
    constructor
    · intro r hr hrf
      have hrmem : r ∈ fr := by
        have hmem : r ∈ out.filter (fun r => decide (r.forecast_flag = .Forecast)) :=
          List.mem_filter.mpr ⟨hr, by simp [hrf]⟩
        rw [hfilter] at hmem
        exact hmem
      exact ⟨lt_zero_false_of_le_floor_false (hfloor r hrmem), hfloor r hrmem⟩
    · intro hp hc2
      rw [hfilter]
      rcases forecastLoop_fitted_nonincreasing h hp hc2
        ((((r0 :: rs).filter (fun r =>
          r.month_on_book = pyMax ((r0 :: rs).map (fun r => r.month_on_book)))).headD
          r0).segment_id)
        ((max_month - pyMax ((r0 :: rs).map (fun r => r.month_on_book))).toNat)
        (pyMax ((r0 :: rs).map (fun r => r.month_on_book)) + 1)
        ((((r0 :: rs).filter (fun r =>
          r.month_on_book = pyMax ((r0 :: rs).map (fun r => r.month_on_book)))).headD
          r0).outstanding_balance
          - (((r0 :: rs).filter (fun r =>
            r.month_on_book = pyMax ((r0 :: rs).map (fun r => r.month_on_book)))).headD
            r0).payments
          - (((r0 :: rs).filter (fun r =>
            r.month_on_book = pyMax ((r0 :: rs).map (fun r => r.month_on_book)))).headD
            r0).chargeoffs) with ⟨fr2, hfr2, _, hni⟩
    
      have hfr12 : fr = fr2 := (Except.ok.injEq _ _).mp (hfr.symm.trans hfr2)
      rw [hfr12]
      exact hni


/-- Witness for the amended C5 at a concrete trained curve (payment and
chargeoff rates both 1/10): the forecast balances 100, 80 are positive,
above the floor, and non-increasing. -/
theorem c5_forecast_balance_amended_witness :
    nonIncreasingFV [FloatV.fin 100, FloatV.fin 80] = true
  ∧ FloatV.lt (FloatV.fin 80) (.fin 0) = false
  ∧ FloatV.le (FloatV.fin 80) (.fin (1/100)) = false := by
  have h := c5_forecast_balance_amended
    ((⟨1, none⟩ : HazardRateEstimator).fit [⟨"T", 0, 100, 100, 1000⟩])
    (fitCurves 1 [⟨"T", 0, 100, 100, 1000⟩]) rfl
    [⟨"A", 0, 0, 0, 100⟩] 2
    [⟨"A", 0, .fin 100, .fin 0, .fin 0, .Actual⟩,
      ⟨"A", 1, .fin 100, .fin 10, .fin 10, .Forecast⟩,
      ⟨"A", 2, .fin 80, .fin 8, .fin 8, .Forecast⟩]
    (by with_unfolding_all rfl)
  have hp : finNonnegRates (fitCurves 1 [⟨"T", 0, 100, 100, 1000⟩]).payment_hazard := by
    rw [show (fitCurves 1 [⟨"T", 0, 100, 100, 1000⟩]).payment_hazard
        = [(0, FloatV.fin (1/10))] from by with_unfolding_all decide]
    intro p hp
    rw [List.mem_singleton.mp hp]
    exact ⟨1/10, rfl, by norm_num⟩
  have hc : finNonnegRates (fitCurves 1 [⟨"T", 0, 100, 100, 1000⟩]).chargeoff_hazard := by
    rw [show (fitCurves 1 [⟨"T", 0, 100, 100, 1000⟩]).chargeoff_hazard
        = [(0, FloatV.fin (1/10))] from by with_unfolding_all decide]
    intro p hp
    rw [List.mem_singleton.mp hp]
    exact ⟨1/10, rfl, by norm_num⟩
  have hni := h.2 hp hc
  have hrow := h.1 ⟨"A", 2, .fin 80, .fin 8, .fin 8, .Forecast⟩ (by simp) rfl
  refine ⟨?_, hrow.1, hrow.2⟩
  have hfil : ([⟨"A", 0, .fin 100, .fin 0, .fin 0, .Actual⟩,
      ⟨"A", 1, .fin 100, .fin 10, .fin 10, .Forecast⟩,
      ⟨"A", 2, .fin 80, .fin 8, .fin 8, .Forecast⟩] :
        List ForecastRow).filter (fun r => decide (r.forecast_flag = .Forecast))
      = [⟨"A", 1, .fin 100, .fin 10, .fin 10, .Forecast⟩,
          ⟨"A", 2, .fin 80, .fin 8, .fin 8, .Forecast⟩] := by decide
  rw [hfil] at hni
  exact hni

/-- C6.  For a nonempty known-actuals input and a fitted estimator: every
emitted `Forecast` row's balance is strictly above the $0.01 floor at
emission time; the `Forecast` ages form the contiguous block
`last+1, ..., last+k` (later ages are simply absent, not zero-filled) with
`k` at most the requested horizon; the output is the (sorted) actual rows
followed by the generated rows and is sorted by age ascending; and when the
loop stopped early (`k` below the horizon) the same `Forecast` rows are
returned for every larger horizon — stopping is caused by the balance floor,
not by `max_age`. -/
theorem c6_forecast_stops_at_floor :
    ∀ (est : HazardRateEstimator) (c : HazardCurves), est.hazard_curves = some c →
    ∀ (rows : List FlowRecord) (max_month : ℤ) (out : List ForecastRow),
      rows ≠ [] →
      generate_forecast est rows max_month = .ok out →
      (∀ r ∈ out.filter (fun r => decide (r.forecast_flag = .Forecast)),
          FloatV.le r.outstanding_balance (.fin (1/100)) = false)
      ∧ (out.filter (fun r => decide (r.forecast_flag = .Forecast))).map
            (fun r => r.month_on_book)
          = List.map (fun j : ℕ => pyMax (rows.map (fun r => r.month_on_book)) + 1 + (j : ℤ))
              (List.range (out.filter (fun r => decide (r.forecast_flag = .Forecast))).length)
      ∧ (out.filter (fun r => decide (r.forecast_flag = .Forecast))).length
          ≤ (max_month - pyMax (rows.map (fun r => r.month_on_book))).toNat
      ∧ out = List.insertionSort (fun a b => a.month_on_book ≤ b.month_on_book)
            (actualRowsOf rows)
          ++ out.filter (fun r => decide (r.forecast_flag = .Forecast))
      ∧ List.Pairwise (fun a b : ForecastRow => a.month_on_book ≤ b.month_on_book) out
      ∧ (∀ (max2 : ℤ) (out2 : List ForecastRow), max_month ≤ max2 →
          (out.filter (fun r => decide (r.forecast_flag = .Forecast))).length
            < (max_month - pyMax (rows.map (fun r => r.month_on_book))).toNat →
          generate_forecast est rows max2 = .ok out2 →
          out2.filter (fun r => decide (r.forecast_flag = .Forecast))
            = out.filter (fun r => decide (r.forecast_flag = .Forecast))) := by
  intro est c h rows max_month out hne hout
  cases rows with
  | nil => exact absurd rfl hne
  | cons r0 rs =>
    rcases generate_forecast_structure h r0 rs max_month rfl rfl hout with
      ⟨fr, hfr, hsplit, hfilter, hmonths, hlen, hfloor, hpair⟩
    rw [hfilter]
    refine ⟨hfloor, hmonths, hlen, ?_, hpair, ?_⟩
    · exact hsplit
    · intro max2 out2 hmax2 hstop hout2
      rcases generate_forecast_structure h r0 rs max2 rfl rfl hout2 with
        ⟨fr2, hfr2, _, hfilter2, _, _, _, _⟩
      rw [hfilter2]
      have hfuel : (max_month - pyMax ((r0 :: rs).map (fun r => r.month_on_book))).toNat
          ≤ (max2 - pyMax ((r0 :: rs).map (fun r => r.month_on_book))).toNat := by
        omega
      have hstable := forecastLoop_stop_stable h
        ((((r0 :: rs).filter (fun r =>
          r.month_on_book = pyMax ((r0 :: rs).map (fun r => r.month_on_book)))).headD
          r0).segment_id)
        ((max_month - pyMax ((r0 :: rs).map (fun r => r.month_on_book))).toNat)
        ((max2 - pyMax ((r0 :: rs).map (fun r => r.month_on_book))).toNat)
        (pyMax ((r0 :: rs).map (fun r => r.month_on_book)) + 1)
        (.fin ((((r0 :: rs).filter (fun r =>
            r.month_on_book = pyMax ((r0 :: rs).map (fun r => r.month_on_book)))).headD
            r0).outstanding_balance
          - (((r0 :: rs).filter (fun r =>
            r.month_on_book = pyMax ((r0 :: rs).map (fun r => r.month_on_book)))).headD
            r0).payments
          - (((r0 :: rs).filter (fun r =>
            r.month_on_book = pyMax ((r0 :: rs).map (fun r => r.month_on_book)))).headD
            r0).chargeoffs))
        fr hfr hstop hfuel
      exact (Except.ok.injEq _ _).mp (hfr2.symm.trans hstable)

/-- Witness for C6 at a concrete curve (payment rate 999/1000) that drains
the balance in two months: the Forecast ages are exactly [1, 2] although the
horizon is 10, and the horizon-20 run returns the very same Forecast rows. -/
theorem c6_forecast_stops_at_floor_witness :
    (([⟨"A", 0, .fin 100, .fin 0, .fin 0, .Actual⟩,
        ⟨"A", 1, .fin 100, .fin (999/10), .fin 0, .Forecast⟩,
        ⟨"A", 2, .fin (1/10), .fin (999/10000), .fin 0, .Forecast⟩] :
          List ForecastRow).filter (fun r => decide (r.forecast_flag = .Forecast))).map
        (fun r => r.month_on_book)
      = List.map (fun j : ℕ => (0 : ℤ) + 1 + (j : ℤ)) (List.range 2)
  ∧ (([⟨"A", 0, .fin 100, .fin 0, .fin 0, .Actual⟩,
        ⟨"A", 1, .fin 100, .fin (999/10), .fin 0, .Forecast⟩,
        ⟨"A", 2, .fin (1/10), .fin (999/10000), .fin 0, .Forecast⟩] :
          List ForecastRow).filter (fun r => decide (r.forecast_flag = .Forecast)))
      = ([⟨"A", 0, .fin 100, .fin 0, .fin 0, .Actual⟩,
          ⟨"A", 1, .fin 100, .fin (999/10), .fin 0, .Forecast⟩,
          ⟨"A", 2, .fin (1/10), .fin (999/10000), .fin 0, .Forecast⟩] :
            List ForecastRow).filter (fun r => decide (r.forecast_flag = .Forecast)) := by
  have h := c6_forecast_stops_at_floor
    ((⟨1, none⟩ : HazardRateEstimator).fit [⟨"T", 0, 999, 0, 1000⟩])
    (fitCurves 1 [⟨"T", 0, 999, 0, 1000⟩]) rfl
    [⟨"A", 0, 0, 0, 100⟩] 10
    [⟨"A", 0, .fin 100, .fin 0, .fin 0, .Actual⟩,
      ⟨"A", 1, .fin 100, .fin (999/10), .fin 0, .Forecast⟩,
      ⟨"A", 2, .fin (1/10), .fin (999/10000), .fin 0, .Forecast⟩]
    (by decide) (by with_unfolding_all rfl)
  constructor
  · have hm := h.2.1
    rw [show pyMax (([⟨"A", 0, 0, 0, 100⟩] : List FlowRecord).map
        (fun r => r.month_on_book)) = (0 : ℤ) from by decide] at hm
    rw [show (([⟨"A", 0, .fin 100, .fin 0, .fin 0, .Actual⟩,
        ⟨"A", 1, .fin 100, .fin (999/10), .fin 0, .Forecast⟩,
        ⟨"A", 2, .fin (1/10), .fin (999/10000), .fin 0, .Forecast⟩] :
          List ForecastRow).filter (fun r => decide (r.forecast_flag = .Forecast))).length
        = 2 from by with_unfolding_all decide] at hm
    exact hm
  · have hs := h.2.2.2.2.2 20
      [⟨"A", 0, .fin 100, .fin 0, .fin 0, .Actual⟩,
        ⟨"A", 1, .fin 100, .fin (999/10), .fin 0, .Forecast⟩,
        ⟨"A", 2, .fin (1/10), .fin (999/10000), .fin 0, .Forecast⟩]
      (by norm_num)
      (by rw [show pyMax (([⟨"A", 0, 0, 0, 100⟩] : List FlowRecord).map
            (fun r => r.month_on_book)) = (0 : ℤ) from by decide]
          with_unfolding_all decide)
      (by with_unfolding_all rfl)
    exact hs

theorem compareRow_fitted {est : HazardRateEstimator} {c : HazardCurves}
    (h : est.hazard_curves = some c) (r : FlowRecord) :
    compareRow est r = .ok
      { month_on_book := r.month_on_book,
        expected_payment_rate := getFromRates c.payment_hazard r.month_on_book,
        actual_payment_rate := fdiv r.payments r.outstanding_balance,
        payment_variance := FloatV.sub (fdiv r.payments r.outstanding_balance)
          (getFromRates c.payment_hazard r.month_on_book),
        expected_chargeoff_rate := getFromRates c.chargeoff_hazard r.month_on_book,
        actual_chargeoff_rate := fdiv r.chargeoffs r.outstanding_balance,
        chargeoff_variance := FloatV.sub (fdiv r.chargeoffs r.outstanding_balance)
          (getFromRates c.chargeoff_hazard r.month_on_book) } := by
  unfold compareRow
  rw [get_hazard_rate_payment h, get_hazard_rate_chargeoff h]
  rfl

theorem compareRows_fitted {est : HazardRateEstimator} {c : HazardCurves}
    (h : est.hazard_curves = some c) :
    ∀ (rows : List FlowRecord),
      compareRows est rows = .ok (rows.map (fun r =>
        { month_on_book := r.month_on_book,
          expected_payment_rate := getFromRates c.payment_hazard r.month_on_book,
          actual_payment_rate := fdiv r.payments r.outstanding_balance,
          payment_variance := FloatV.sub (fdiv r.payments r.outstanding_balance)
            (getFromRates c.payment_hazard r.month_on_book),
          expected_chargeoff_rate := getFromRates c.chargeoff_hazard r.month_on_book,
          actual_chargeoff_rate := fdiv r.chargeoffs r.outstanding_balance,
          chargeoff_variance := FloatV.sub (fdiv r.chargeoffs r.outstanding_balance)
            (getFromRates c.chargeoff_hazard r.month_on_book) })) := by
  intro rows
  induction rows with
  | nil => rfl
  | cons r rest ih =>
    show (compareRow est r).bind _ = _
    rw [compareRow_fitted h r]
    show (compareRows est rest).bind _ = _
    rw [ih]
    rfl

/-- C9.  With a fitted estimator, `compare` produces one comparison row per
input row with actual rate = amount/balance (float division: a zero balance
yields `inf`/`nan`, not an exception), expected rate = the stored curve's
`get_rate` at that row's age, variance = actual − expected; a row contributes
a warning exactly when `|payment_variance| > 0.05` or
`|chargeoff_variance| > 0.02` (one per exceeded threshold); the summary
holds the mean signed variances and the mean squared variances, computed
with pandas' default `skipna=True` so `NaN` variances (e.g. from a `0/0`
row) are dropped from both the sum and the count (`np.sqrt` has no exact
rational value, so the embedding stores the radicand of the float RMSE);
and an empty input returns the empty comparison with an empty
summary object for every estimator, fitted or not, with no division by
zero. -/
theorem c9_curve_comparison :
    (∀ (est : HazardRateEstimator) (c : HazardCurves), est.hazard_curves = some c →
      ∀ (rows : List FlowRecord) (out : CurveValidation),
        validate_known_actuals est rows = .ok out →
        out.detailed_comparison = rows.map (fun r =>
          { month_on_book := r.month_on_book,
            expected_payment_rate := getFromRates c.payment_hazard r.month_on_book,
            actual_payment_rate := fdiv r.payments r.outstanding_balance,
            payment_variance := FloatV.sub (fdiv r.payments r.outstanding_balance)
              (getFromRates c.payment_hazard r.month_on_book),
            expected_chargeoff_rate := getFromRates c.chargeoff_hazard r.month_on_book,
            actual_chargeoff_rate := fdiv r.chargeoffs r.outstanding_balance,
            chargeoff_variance := FloatV.sub (fdiv r.chargeoffs r.outstanding_balance)
              (getFromRates c.chargeoff_hazard r.month_on_book) })
        ∧ out.warnings = out.detailed_comparison.flatMap rowWarnings
        ∧ (∀ cr ∈ out.detailed_comparison,
            (rowWarnings cr ≠ [] ↔
              (FloatV.lt (.fin (1/20)) (FloatV.fabs cr.payment_variance) = true
                ∨ FloatV.lt (.fin (1/50)) (FloatV.fabs cr.chargeoff_variance) = true)))
        ∧ (rows ≠ [] → out.summary_stats = some
            { mean_payment_variance :=
                meanSkipna (out.detailed_comparison.map (fun cr => cr.payment_variance)),
              mean_chargeoff_variance :=
                meanSkipna (out.detailed_comparison.map (fun cr => cr.chargeoff_variance)),
              rmse_payment_sq := meanSkipna (out.detailed_comparison.map
                (fun cr => FloatV.mul cr.payment_variance cr.payment_variance)),
              rmse_chargeoff_sq := meanSkipna (out.detailed_comparison.map
                (fun cr => FloatV.mul cr.chargeoff_variance cr.chargeoff_variance)) }))
    ∧ (∀ (est : HazardRateEstimator),
        validate_known_actuals est [] = .ok ⟨[], none, []⟩) := by
  constructor
  · intro est c h rows out hout
    have hcomp := compareRows_fitted h rows
    obtain ⟨M, hM⟩ : ∃ M, M = rows.map (fun r =>
        ({ month_on_book := r.month_on_book,
           expected_payment_rate := getFromRates c.payment_hazard r.month_on_book,
           actual_payment_rate := fdiv r.payments r.outstanding_balance,
           payment_variance := FloatV.sub (fdiv r.payments r.outstanding_balance)
             (getFromRates c.payment_hazard r.month_on_book),
           expected_chargeoff_rate := getFromRates c.chargeoff_hazard r.month_on_book,
           actual_chargeoff_rate := fdiv r.chargeoffs r.outstanding_balance,
           chargeoff_variance := FloatV.sub (fdiv r.chargeoffs r.outstanding_balance)
             (getFromRates c.chargeoff_hazard r.month_on_book) } : ComparisonRow)) := ⟨_, rfl⟩
    rw [← hM] at hcomp
    have key : validate_known_actuals est rows = .ok
        ⟨M,
          if M.isEmpty then none else some
            ⟨meanSkipna (M.map (fun cr => cr.payment_variance)),
              meanSkipna (M.map (fun cr => cr.chargeoff_variance)),
              meanSkipna (M.map (fun cr => FloatV.mul cr.payment_variance cr.payment_variance)),
              meanSkipna (M.map (fun cr => FloatV.mul cr.chargeoff_variance cr.chargeoff_variance))⟩,
          M.flatMap rowWarnings⟩ := by
      unfold validate_known_actuals
      rw [hcomp]
      rfl
    have hrec := (Except.ok.injEq _ _).mp (key.symm.trans hout)
    subst hrec
    refine ⟨hM, rfl, ?_, ?_⟩
    · intro cr _
      unfold rowWarnings
      by_cases h1 : FloatV.lt (.fin (1/20)) (FloatV.fabs cr.payment_variance) = true
      · rw [if_pos h1]
        constructor
        · intro _
          exact Or.inl h1
        · intro _
          simp
      · rw [if_neg h1]
        by_cases h2 : FloatV.lt (.fin (1/50)) (FloatV.fabs cr.chargeoff_variance) = true
        · rw [if_pos h2]
          constructor
          · intro _
            exact Or.inr h2
          · intro _
            simp
        · rw [if_neg h2]
          constructor
          · intro hne
            exact absurd rfl hne
          · intro hor
            rcases hor with hx | hx
            · exact absurd hx h1
            · exact absurd hx h2
    · intro hne
      have hMne : ¬ M.isEmpty = true := by
        rw [List.isEmpty_iff, hM]
        simpa using hne
      show (if M.isEmpty then none else some _) = some _
      rw [if_neg hMne]
  · intro est
    rfl


/-- Witness for C9: a one-row comparison against the curve fitted from a
single training row (payment rate 1/10, chargeoff rate 1/20): actual payment
rate 3/10 gives variance 1/5, actual chargeoff rate 0 gives variance −1/20,
both warned; adding a `payments = 0, balance = 0` row (whose variances are
`0/0 = NaN`) leaves the summary at the normal row's values — pandas
`skipna=True` drops the `NaN` variances from both the sum and the count; and
the empty input succeeds on an unfitted estimator with an empty summary
object. -/
theorem c9_curve_comparison_witness :
    validate_known_actuals (⟨3, none⟩ : HazardRateEstimator) [] = .ok ⟨[], none, []⟩
  ∧ validate_known_actuals ((⟨1, none⟩ : HazardRateEstimator).fit [⟨"T", 0, 100, 50, 1000⟩])
        [⟨"A", 0, 30, 0, 100⟩]
      = .ok ⟨[⟨0, .fin (1/10), .fin (3/10), .fin (1/5), .fin (1/20), .fin 0, .fin (-(1/20))⟩],
          some ⟨.fin (1/5), .fin (-(1/20)), .fin (1/25), .fin (1/400)⟩,
          [(0, .payment), (0, .chargeoff)]⟩
  ∧ validate_known_actuals ((⟨1, none⟩ : HazardRateEstimator).fit [⟨"T", 0, 100, 50, 1000⟩])
        [⟨"A", 0, 0, 0, 0⟩, ⟨"A", 0, 30, 0, 100⟩]
      = .ok ⟨[⟨0, .fin (1/10), .nan, .nan, .fin (1/20), .nan, .nan⟩,
            ⟨0, .fin (1/10), .fin (3/10), .fin (1/5), .fin (1/20), .fin 0, .fin (-(1/20))⟩],
          some ⟨.fin (1/5), .fin (-(1/20)), .fin (1/25), .fin (1/400)⟩,
          [(0, .payment), (0, .chargeoff)]⟩
  ∧ meanSkipna [FloatV.nan, FloatV.fin (1/5)] = .fin (1/5)
  ∧ rowWarnings ⟨0, .fin (1/10), .fin (3/10), .fin (1/5), .fin (1/20), .fin 0,
        .fin (-(1/20))⟩ ≠ [] := by
  have hval : validate_known_actuals ((⟨1, none⟩ : HazardRateEstimator).fit
      [⟨"T", 0, 100, 50, 1000⟩]) [⟨"A", 0, 30, 0, 100⟩]
      = .ok ⟨[⟨0, .fin (1/10), .fin (3/10), .fin (1/5), .fin (1/20), .fin 0, .fin (-(1/20))⟩],
          some ⟨.fin (1/5), .fin (-(1/20)), .fin (1/25), .fin (1/400)⟩,
          [(0, .payment), (0, .chargeoff)]⟩ := by
    with_unfolding_all rfl
  have h := (c9_curve_comparison.1 ((⟨1, none⟩ : HazardRateEstimator).fit
      [⟨"T", 0, 100, 50, 1000⟩]) (fitCurves 1 [⟨"T", 0, 100, 50, 1000⟩]) rfl
      [⟨"A", 0, 30, 0, 100⟩] _ hval)
  refine ⟨c9_curve_comparison.2 _, hval, ?_, ?_, ?_⟩
  · with_unfolding_all rfl
  · with_unfolding_all decide
  · exact (h.2.2.1 ⟨0, .fin (1/10), .fin (3/10), .fin (1/5), .fin (1/20), .fin 0,
        .fin (-(1/20))⟩ (by with_unfolding_all decide)).mpr
      (Or.inl (by with_unfolding_all decide))
